import Mathlib

/-!
# Verification of the Extended TS SDK stream-state machine

Shallow embedding of the two stateful stream subscriptions of the repository:

* `OrderbookSubscription` (src/perpetual/stream-client/orderbook-subscription.ts):
  price-keyed bid/ask level maps, snapshot/delta reduction with pre-snapshot
  buffering, sorted snapshot building, and the best-bid/best-ask/mid-price
  accessors.
* `AccountSubscription` (src/perpetual/stream-client/stream-client.ts):
  keyed maps of live orders and open positions plus a single balance record,
  with the per-entity snapshot/delta emission rules.

Modelling conventions:
* `Decimal` (decimal.js, arbitrary-precision exact decimal arithmetic on the
  operations used here: plus, comparedTo, greaterThan, lessThan, isZero,
  isNegative, dividedBy 2) is modelled by `ℚ`.
* A JS `Map<string, OrderbookEntry>` keyed by `price.toString()` is modelled
  as an insertion-ordered association list keyed by the rational price value
  (`Decimal.toString` is injective on decimal values, so the string key and
  the numeric price determine each other).
* JSON fields that may be absent are `Option`; the JS truthiness tests
  `if (event.ts)`, `if (!data.m)` are modelled exactly (absent, zero and the
  empty string are falsy).
* The async iterator loop is modelled as a step function from state and one
  received envelope to the next state plus the list of snapshots yielded for
  that envelope, folded over a list of envelopes.
-/

namespace StreamSdk

/-- One price level stored on one side of the book
(`OrderbookEntry` in orderbook-subscription.ts). -/
structure OrderbookEntry where
  price : ℚ
  qty : ℚ
  deriving Repr, DecidableEq

/-- Model `OrderbookQuantityModel` from perpetual/orderbooks.ts: one incoming
(quantity, price) pair of a snapshot or delta payload. -/
structure OrderbookQuantityModel where
  qty : ℚ
  price : ℚ
  deriving Repr, DecidableEq

/-- Model `OrderbookUpdateModel` from perpetual/orderbooks.ts: a parsed orderbook
snapshot or delta payload. -/
structure OrderbookUpdateModel where
  market : String
  bid : List OrderbookQuantityModel
  ask : List OrderbookQuantityModel
  deriving Repr, DecidableEq

/-- The `Map<string, OrderbookEntry>` of one book side, keyed by
`price.toString()`: an insertion-ordered association list keyed by the price. -/
abbrev LevelMap := List OrderbookEntry

/-- The `Map.get(priceKey)` operation. -/
def levelGet (m : LevelMap) (p : ℚ) : Option OrderbookEntry :=
  m.find? (fun e => decide (e.price = p))

/-- The `Map.set(priceKey, v)` operation: replaces the entry in place when the key is
present, appends otherwise (JS `Map` preserves insertion order). -/
def levelSet (m : LevelMap) (p : ℚ) (v : OrderbookEntry) : LevelMap :=
  if m.any (fun e => decide (e.price = p)) then
    m.map (fun e => if e.price = p then v else e)
  else
    m ++ [v]

/-- The `Map.delete(priceKey)` operation. -/
def levelDelete (m : LevelMap) (p : ℚ) : LevelMap :=
  m.filter (fun e => decide (¬ e.price = p))

/-- The body of the `for` loops of `initOrderbook`: store every incoming
level verbatim (no quantity filter is applied in the source). -/
def initLevels (levels : List OrderbookQuantityModel) : LevelMap :=
  levels.foldl (fun m l => levelSet m l.price { price := l.price, qty := l.qty }) []

/-- The body of the per-level `for` loops of `updateOrderbook`: deltas are
relative changes; a level reaching zero or negative quantity is deleted; a
new level is inserted only when its quantity is positive. -/
def applyDeltaLevel (m : LevelMap) (l : OrderbookQuantityModel) : LevelMap :=
  match levelGet m l.price with
  | some existing =>
      let newQty := existing.qty + l.qty
      if newQty = 0 ∨ newQty < 0 then
        levelDelete m l.price
      else
        levelSet m l.price { price := existing.price, qty := newQty }
  | none =>
      if ¬ l.qty = 0 ∧ ¬ l.qty < 0 then
        levelSet m l.price { price := l.price, qty := l.qty }
      else
        m

/-- Internal state of `OrderbookSubscription`. -/
structure OrderbookState where
  bidLevels : LevelMap
  askLevels : LevelMap
  marketName : String
  lastSequence : ℕ
  lastTimestamp : ℕ
  snapshotReceived : Bool
  bufferedDeltas : List OrderbookUpdateModel
  deriving Repr, DecidableEq

/-- Field initializers of `OrderbookSubscription`. -/
def obInit (market : String) : OrderbookState where
  bidLevels := []
  askLevels := []
  marketName := market
  lastSequence := 0
  lastTimestamp := 0
  snapshotReceived := false
  bufferedDeltas := []

/-- Method `OrderbookSubscription.initOrderbook`: clears both maps and stores every
incoming level of the snapshot payload. -/
def initOrderbook (s : OrderbookState) (data : OrderbookUpdateModel) : OrderbookState :=
  { s with bidLevels := initLevels data.bid, askLevels := initLevels data.ask }

/-- Method `OrderbookSubscription.updateOrderbook`: applies a delta payload level by
level to both sides. -/
def updateOrderbook (s : OrderbookState) (data : OrderbookUpdateModel) : OrderbookState :=
  { s with
      bidLevels := data.bid.foldl applyDeltaLevel s.bidLevels
      askLevels := data.ask.foldl applyDeltaLevel s.askLevels }

/-- The consumer-facing view (`FullOrderbookSnapshot`). -/
structure FullOrderbookSnapshot where
  market : String
  bids : List OrderbookEntry
  asks : List OrderbookEntry
  timestamp : ℕ
  sequence : ℕ
  deriving Repr, DecidableEq

/-- The bid-side sort comparator of `buildSnapshot`:
`(a, b) => b.price.comparedTo(a.price)` places `a` before `b`
exactly when `b.price ≤ a.price` (descending by price). -/
def bidOrder (a b : OrderbookEntry) : Prop := b.price ≤ a.price

/-- The ask-side sort comparator of `buildSnapshot`:
`(a, b) => a.price.comparedTo(b.price)` (ascending by price). -/
def askOrder (a b : OrderbookEntry) : Prop := a.price ≤ b.price

instance : DecidableRel bidOrder := fun a b => inferInstanceAs (Decidable (b.price ≤ a.price))

instance : DecidableRel askOrder := fun a b => inferInstanceAs (Decidable (a.price ≤ b.price))

instance : IsTotal OrderbookEntry bidOrder := ⟨fun a b => le_total b.price a.price⟩

instance : IsTotal OrderbookEntry askOrder := ⟨fun a b => le_total a.price b.price⟩

instance : IsTrans OrderbookEntry bidOrder := ⟨fun _ _ _ h h' => le_trans h' h⟩

instance : IsTrans OrderbookEntry askOrder := ⟨fun _ _ _ h h' => le_trans h h'⟩

/-- Method `OrderbookSubscription.buildSnapshot`: materializes the sorted view from
the level maps. JS `Array.prototype.sort` is a stable comparator sort;
insertion sort is one. -/
def buildSnapshot (s : OrderbookState) : FullOrderbookSnapshot where
  market := s.marketName
  bids := s.bidLevels.insertionSort bidOrder
  asks := s.askLevels.insertionSort askOrder
  timestamp := s.lastTimestamp
  sequence := s.lastSequence

/-- Enum `StreamDataType` from utils/http.ts. -/
inductive StreamDataType
  | UNKNOWN | BALANCE | DELTA | DEPOSIT | ORDER | POSITION | SNAPSHOT | TRADE
  | TRANSFER | WITHDRAWAL
  deriving Repr, DecidableEq

/-- One raw `{q, p}` pair of a wire orderbook payload (the decimal strings
are represented by their decoded values). -/
structure RawOrderbookLevel where
  q : ℚ
  p : ℚ
  deriving Repr, DecidableEq

/-- The raw orderbook payload as it comes off the wire: `m`, `b`, `a` may be
absent. -/
structure RawOrderbookData where
  m : Option String
  b : Option (List RawOrderbookLevel)
  a : Option (List RawOrderbookLevel)
  deriving Repr, DecidableEq

/-- Method `OrderbookSubscription.parseOrderbookData`: `!data.m || !data.b || !data.a`
rejects an absent field (and, by JS falsiness, an empty market string; arrays,
even empty ones, are truthy). -/
def parseOrderbookData (data : RawOrderbookData) : Option OrderbookUpdateModel :=
  match data.m, data.b, data.a with
  | some m, some b, some a =>
      if m = "" then none
      else
        some { market := m
               bid := b.map (fun l => { qty := l.q, price := l.p })
               ask := a.map (fun l => { qty := l.q, price := l.p }) }
  | _, _, _ => none

/-- Envelope `WrappedStreamResponse` as actually produced by `JSON.parse` in
`PerpetualStreamConnection.receive`: every field may be absent. -/
structure ObEnvelope where
  type : Option StreamDataType
  data : Option RawOrderbookData
  ts : Option ℕ
  seq : Option ℕ
  deriving Repr, DecidableEq

/-- JS truthiness of an optional number: absent and `0` are falsy. -/
def numTruthy : Option ℕ → Bool
  | none => false
  | some v => decide (¬ v = 0)

/-- The two leading statements of both iterator loops:
`if (event.ts) this.lastTimestamp = event.ts;`
`if (event.seq) this.lastSequence = event.seq;`. -/
def obApplyMeta (s : OrderbookState) (ts seq : Option ℕ) : OrderbookState :=
  let s1 := if numTruthy ts then { s with lastTimestamp := ts.getD 0 } else s
  if numTruthy seq then { s1 with lastSequence := seq.getD 0 } else s1

/-- One iteration of `OrderbookSubscription[Symbol.asyncIterator]` applied to
one received envelope: returns the next state and the snapshots yielded for
this envelope. -/
def obStep (s : OrderbookState) (ev : ObEnvelope) :
    OrderbookState × List FullOrderbookSnapshot :=
  let s := obApplyMeta s ev.ts ev.seq
  match ev.type, ev.data with
  | some .SNAPSHOT, some data =>
      match parseOrderbookData data with
      | some orderbookData =>
          let s := initOrderbook s orderbookData
          let s := { s with snapshotReceived := true }
          let s := s.bufferedDeltas.foldl updateOrderbook s
          let s := { s with bufferedDeltas := [] }
          (s, [buildSnapshot s])
      | none => (s, [])
  | some .DELTA, some data =>
      match parseOrderbookData data with
      | some orderbookData =>
          if s.snapshotReceived then
            let s := updateOrderbook s orderbookData
            (s, [buildSnapshot s])
          else
            ({ s with bufferedDeltas := s.bufferedDeltas ++ [orderbookData] }, [])
      | none => (s, [])
  | _, _ => (s, [])

/-- A `while (!this.isClosed()) { ... recv() ... }` consumption loop run over
a finite prefix of the stream: fold the per-envelope step, accumulating all
yielded snapshots in order. -/
def runAccum {σ ε τ : Type} (step : σ → ε → σ × List τ) (s : σ) (evs : List ε) :
    σ × List τ :=
  evs.foldl (fun acc ev =>
    let r := step acc.1 ev
    (r.1, acc.2 ++ r.2)) (s, [])

/-- The orderbook consumption loop run from a given state. -/
def obRunFrom (s : OrderbookState) (evs : List ObEnvelope) :
    OrderbookState × List FullOrderbookSnapshot :=
  runAccum obStep s evs

/-- The consumption loop of a freshly constructed subscription. -/
def obRun (market : String) (evs : List ObEnvelope) :
    OrderbookState × List FullOrderbookSnapshot :=
  obRunFrom (obInit market) evs

/-- The loop body of `bestBid`:
`if (!best || entry.price.greaterThan(best.price)) best = entry;`. -/
def bidBetter (best : Option OrderbookEntry) (entry : OrderbookEntry) :
    Option OrderbookEntry :=
  match best with
  | none => some entry
  | some b => if entry.price > b.price then some entry else some b

/-- The loop body of `bestAsk`:
`if (!best || entry.price.lessThan(best.price)) best = entry;`. -/
def askBetter (best : Option OrderbookEntry) (entry : OrderbookEntry) :
    Option OrderbookEntry :=
  match best with
  | none => some entry
  | some b => if entry.price < b.price then some entry else some b

/-- Method `OrderbookSubscription.bestBid`: linear scan keeping the entry with the
greater price. -/
def bestBid (s : OrderbookState) : Option OrderbookEntry :=
  if s.bidLevels.length = 0 then none
  else s.bidLevels.foldl bidBetter none

/-- Method `OrderbookSubscription.bestAsk`: linear scan keeping the entry with the
lesser price. -/
def bestAsk (s : OrderbookState) : Option OrderbookEntry :=
  if s.askLevels.length = 0 then none
  else s.askLevels.foldl askBetter none

/-- Method `OrderbookSubscription.getMidPrice`. -/
def getMidPrice (s : OrderbookState) : Option ℚ :=
  match bestBid s, bestAsk s with
  | some bid, some ask => some ((bid.price + ask.price) / 2)
  | _, _ => none

/-! ## Account subscription (stream-client.ts) -/

/-- Enum `OrderStatus` from perpetual/orders.ts. -/
inductive OrderStatus
  | UNKNOWN | NEW | UNTRIGGERED | PARTIALLY_FILLED | FILLED | CANCELLED
  | EXPIRED | REJECTED
  deriving Repr, DecidableEq, Inhabited

/-- Constant `AccountSubscription.ACTIVE_ORDER_STATUSES`: the statuses kept in the
live-order map. -/
def ACTIVE_ORDER_STATUSES : List OrderStatus :=
  [.NEW, .UNTRIGGERED, .PARTIALLY_FILLED]

/-- Record `AccountOrder` from stream-client.ts. -/
structure AccountOrder where
  id : ℕ
  accountId : ℕ
  externalId : String
  market : String
  type : String
  side : String
  status : OrderStatus
  price : String
  qty : String
  filledQty : String
  cancelledQty : String
  reduceOnly : Bool
  postOnly : Bool
  createdTime : ℕ
  updatedTime : ℕ
  expireTime : ℕ
  timeInForce : String
  payedFee : String
  deriving Repr, DecidableEq, Inhabited

/-- Record `AccountPosition` from stream-client.ts. -/
structure AccountPosition where
  id : ℕ
  accountId : ℕ
  market : String
  status : String
  side : String
  leverage : String
  size : String
  value : String
  openPrice : String
  markPrice : String
  liquidationPrice : String
  margin : String
  unrealisedPnl : String
  midPriceUnrealisedPnl : String
  realisedPnl : String
  adl : Option ℕ
  createdAt : ℕ
  updatedAt : ℕ
  deriving Repr, DecidableEq, Inhabited

/-- Record `AccountBalance` from stream-client.ts. -/
structure AccountBalance where
  collateralName : String
  balance : String
  status : String
  equity : String
  spotEquity : String
  spotEquityForAvailableForTrade : String
  availableForTrade : String
  availableForWithdrawal : String
  unrealisedPnl : String
  initialMargin : String
  marginRatio : String
  updatedTime : ℕ
  exposure : String
  leverage : String
  deriving Repr, DecidableEq, Inhabited

/-- A JS `Map<number, β>` as an insertion-ordered association list. -/
abbrev KeyedMap (β : Type) := List (ℕ × β)

/-- The `Map.get(k)` operation. -/
def keyGet {β : Type} (m : KeyedMap β) (k : ℕ) : Option β :=
  (m.find? (fun e => decide (e.1 = k))).map (·.2)

/-- The `Map.set(k, v)` operation: replaces in place when the key is present, appends
otherwise. -/
def keySet {β : Type} (m : KeyedMap β) (k : ℕ) (v : β) : KeyedMap β :=
  if m.any (fun e => decide (e.1 = k)) then
    m.map (fun e => if e.1 = k then (k, v) else e)
  else
    m ++ [(k, v)]

/-- The `Map.delete(k)` operation. -/
def keyDelete {β : Type} (m : KeyedMap β) (k : ℕ) : KeyedMap β :=
  m.filter (fun e => decide (¬ e.1 = k))

/-- Method `AccountSubscription.handleOrderSnapshot`: clears the map, inserts only
orders whose status is in the live set. -/
def handleOrderSnapshot (orders : List AccountOrder) : KeyedMap AccountOrder :=
  orders.foldl
    (fun m o => if o.status ∈ ACTIVE_ORDER_STATUSES then keySet m o.id o else m) []

/-- Method `AccountSubscription.handleOrderUpdate`: upserts live orders, deletes
orders whose status has become terminal. -/
def handleOrderUpdate (m : KeyedMap AccountOrder) (orders : List AccountOrder) :
    KeyedMap AccountOrder :=
  orders.foldl
    (fun m o =>
      if o.status ∈ ACTIVE_ORDER_STATUSES then keySet m o.id o
      else keyDelete m o.id) m

/-- Method `AccountSubscription.handlePositionSnapshot`. -/
def handlePositionSnapshot (positions : List AccountPosition) : KeyedMap AccountPosition :=
  positions.foldl
    (fun m p => if ¬ p.status = "CLOSED" then keySet m p.id p else m) []

/-- Method `AccountSubscription.handlePositionUpdate`. -/
def handlePositionUpdate (m : KeyedMap AccountPosition) (positions : List AccountPosition) :
    KeyedMap AccountPosition :=
  positions.foldl
    (fun m p => if p.status = "CLOSED" then keyDelete m p.id else keySet m p.id p) m

/-- An untyped JSON value as far as the `isSnapshot` field is concerned;
the code tests it with strict equality `=== true`. -/
inductive JVal
  | undef
  | null
  | jbool (b : Bool)
  | jnum (n : ℚ)
  | jstr (s : String)
  deriving Repr, DecidableEq

/-- The raw payload of an account-stream envelope: `isSnapshot` is an
arbitrary JSON value, the entity arrays and the balance may be absent. -/
structure AccountEventData where
  isSnapshot : JVal
  orders : Option (List AccountOrder)
  positions : Option (List AccountPosition)
  balance : Option AccountBalance
  deriving Repr, DecidableEq

/-- A received envelope of the account stream. -/
structure AccEnvelope where
  type : Option StreamDataType
  data : Option AccountEventData
  ts : Option ℕ
  seq : Option ℕ
  deriving Repr, DecidableEq

/-- Internal state of `AccountSubscription`. -/
structure AccountState where
  positions : KeyedMap AccountPosition
  orders : KeyedMap AccountOrder
  balance : Option AccountBalance
  lastSequence : ℕ
  lastTimestamp : ℕ
  deriving Repr, DecidableEq

/-- Field initializers of `AccountSubscription`. -/
def accInit : AccountState where
  positions := []
  orders := []
  balance := none
  lastSequence := 0
  lastTimestamp := 0

/-- The consumer-facing view (`FullAccountSnapshot`). -/
structure FullAccountSnapshot where
  positions : List AccountPosition
  orders : List AccountOrder
  balance : Option AccountBalance
  timestamp : ℕ
  sequence : ℕ
  deriving Repr, DecidableEq

/-- Method `AccountSubscription.buildSnapshot`: `Array.from(map.values())` in
insertion order. -/
def accBuildSnapshot (s : AccountState) : FullAccountSnapshot where
  positions := s.positions.map (·.2)
  orders := s.orders.map (·.2)
  balance := s.balance
  timestamp := s.lastTimestamp
  sequence := s.lastSequence

/-- The two leading `if (event.ts) ... if (event.seq) ...` statements of the
account iterator loop. -/
def accApplyMeta (s : AccountState) (ts seq : Option ℕ) : AccountState :=
  let s1 := if numTruthy ts then { s with lastTimestamp := ts.getD 0 } else s
  if numTruthy seq then { s1 with lastSequence := seq.getD 0 } else s1

/-- One iteration of `AccountSubscription[Symbol.asyncIterator]` applied to
one received envelope: the next state plus the snapshots yielded for this
envelope. -/
def accStep (s : AccountState) (ev : AccEnvelope) :
    AccountState × List FullAccountSnapshot :=
  let s := accApplyMeta s ev.ts ev.seq
  match ev.data with
  | none => (s, [])
  | some data =>
      let isSnapshot := data.isSnapshot = JVal.jbool true
      if ev.type = some .ORDER then
        let orders := data.orders.getD []
        if isSnapshot then
          ({ s with orders := handleOrderSnapshot orders }, [])
        else
          let s := { s with orders := handleOrderUpdate s.orders orders }
          (s, [accBuildSnapshot s])
      else if ev.type = some .POSITION then
        let positions := data.positions.getD []
        if isSnapshot then
          let s := { s with positions := handlePositionSnapshot positions }
          (s, [accBuildSnapshot s])
        else
          let s := { s with positions := handlePositionUpdate s.positions positions }
          (s, [accBuildSnapshot s])
      else if ev.type = some .BALANCE then
        match data.balance with
        | some balance =>
            if isSnapshot then
              ({ s with balance := some balance }, [])
            else
              let s := { s with balance := some balance }
              (s, [accBuildSnapshot s])
        | none => (s, [])
      else (s, [])

/-- The account consumption loop run from a given state. -/
def accRunFrom (s : AccountState) (evs : List AccEnvelope) :
    AccountState × List FullAccountSnapshot :=
  runAccum accStep s evs

/-- The account consumption loop of a freshly constructed subscription. -/
def accRun (evs : List AccEnvelope) : AccountState × List FullAccountSnapshot :=
  accRunFrom accInit evs

/-! ## Derived predicates used by the statements -/

/-- The keys of a level map (the stored prices; the JS map key is the decimal
string form of the price). -/
def levelKeys (m : LevelMap) : List ℚ :=
  m.map (·.price)

/-- Both sides of the book have duplicate-free key sets. -/
def obKeysNodup (s : OrderbookState) : Prop :=
  (levelKeys s.bidLevels).Nodup ∧ (levelKeys s.askLevels).Nodup

/-- Every stored level has strictly positive quantity. -/
def posLevels (m : LevelMap) : Prop :=
  ∀ e ∈ m, 0 < e.qty

/-- Every level of a parsed payload has strictly positive quantity. -/
def posPayload (d : OrderbookUpdateModel) : Prop :=
  ∀ l ∈ d.bid ++ d.ask, 0 < l.qty

/-! ## Concrete inputs used by witnesses and counterexamples -/

/-- A raw snapshot payload: bids `[(100, 5)]`, asks `[(101, 3)]`. -/
def rawSnapData : RawOrderbookData where
  m := some "BTC-USD"
  b := some [{ q := 5, p := 100 }]
  a := some [{ q := 3, p := 101 }]

/-- The parse of `rawSnapData`. -/
def obSnapModel : OrderbookUpdateModel where
  market := "BTC-USD"
  bid := [{ qty := 5, price := 100 }]
  ask := [{ qty := 3, price := 101 }]

/-- A well-formed snapshot envelope: bids `[(100, 5)]`, asks `[(101, 3)]`. -/
def evSnap : ObEnvelope where
  type := some .SNAPSHOT
  data := some rawSnapData
  ts := some 10
  seq := some 1

/-- A raw delta payload: bids `[(100, -2)]`. -/
def rawDeltaAData : RawOrderbookData where
  m := some "BTC-USD"
  b := some [{ q := -2, p := 100 }]
  a := some []

/-- The parse of `rawDeltaAData`. -/
def obDeltaAModel : OrderbookUpdateModel where
  market := "BTC-USD"
  bid := [{ qty := -2, price := 100 }]
  ask := []

/-- A raw delta payload: asks `[(101, -3)]`. -/
def rawDeltaBData : RawOrderbookData where
  m := some "BTC-USD"
  b := some []
  a := some [{ q := -3, p := 101 }]

/-- The parse of `rawDeltaBData`. -/
def obDeltaBModel : OrderbookUpdateModel where
  market := "BTC-USD"
  bid := []
  ask := [{ qty := -3, price := 101 }]

/-- A raw delta payload: bids `[(99, 4)]`. -/
def rawDeltaCData : RawOrderbookData where
  m := some "BTC-USD"
  b := some [{ q := 4, p := 99 }]
  a := some []

/-- The parse of `rawDeltaCData`. -/
def obDeltaCModel : OrderbookUpdateModel where
  market := "BTC-USD"
  bid := [{ qty := 4, price := 99 }]
  ask := []

/-- A well-formed delta envelope: bids `[(100, -2)]`. -/
def evDelta1 : ObEnvelope where
  type := some .DELTA
  data := some rawDeltaAData
  ts := some 11
  seq := some 2

/-- A well-formed delta envelope: asks `[(101, -3)]`. -/
def evDelta2 : ObEnvelope where
  type := some .DELTA
  data := some rawDeltaBData
  ts := some 12
  seq := some 3

/-- The consumer view emitted for `evDelta1` after `evSnap`. -/
def c6snap : FullOrderbookSnapshot where
  market := "BTC-USD"
  bids := [{ price := 100, qty := 3 }]
  asks := [{ price := 101, qty := 3 }]
  timestamp := 11
  sequence := 2

/-- A snapshot envelope whose payload carries a zero-quantity bid level. -/
def evSnapZero : ObEnvelope where
  type := some .SNAPSHOT
  data := some { m := some "BTC-USD", b := some [{ q := 0, p := 100 }],
                 a := some [] }
  ts := some 1
  seq := some 1

/-- A malformed delta envelope: the payload lacks the ask array. -/
def evMalformed : ObEnvelope where
  type := some .DELTA
  data := some { m := some "BTC-USD", b := some [{ q := 1, p := 100 }],
                 a := none }
  ts := some 13
  seq := some 4

/-- An envelope that carries `ts: 0` and `seq: 0`. -/
def evZeroMeta : ObEnvelope where
  type := none
  data := none
  ts := some 0
  seq := some 0

/-- A live account order with id 1. -/
def ordLive : AccountOrder where
  id := 1
  accountId := 7
  externalId := "ext-1"
  market := "BTC-USD"
  type := "LIMIT"
  side := "BUY"
  status := .NEW
  price := "100"
  qty := "5"
  filledQty := "0"
  cancelledQty := "0"
  reduceOnly := false
  postOnly := false
  createdTime := 100
  updatedTime := 100
  expireTime := 0
  timeInForce := "GTT"
  payedFee := "0"

/-- A filled (terminal) account order with id 2, never seen live. -/
def ordFilled : AccountOrder where
  id := 2
  accountId := 7
  externalId := "ext-2"
  market := "BTC-USD"
  type := "LIMIT"
  side := "SELL"
  status := .FILLED
  price := "101"
  qty := "3"
  filledQty := "3"
  cancelledQty := "0"
  reduceOnly := false
  postOnly := false
  createdTime := 101
  updatedTime := 102
  expireTime := 0
  timeInForce := "GTT"
  payedFee := "1"

/-- An open account position with id 11. -/
def posOpen : AccountPosition where
  id := 11
  accountId := 7
  market := "BTC-USD"
  status := "OPEN"
  side := "LONG"
  leverage := "10"
  size := "1"
  value := "100"
  openPrice := "100"
  markPrice := "100"
  liquidationPrice := "90"
  margin := "10"
  unrealisedPnl := "0"
  midPriceUnrealisedPnl := "0"
  realisedPnl := "0"
  adl := none
  createdAt := 100
  updatedAt := 100

/-- A balance record. -/
def balRec : AccountBalance where
  collateralName := "USD"
  balance := "1000"
  status := "OK"
  equity := "1000"
  spotEquity := "1000"
  spotEquityForAvailableForTrade := "1000"
  availableForTrade := "1000"
  availableForWithdrawal := "1000"
  unrealisedPnl := "0"
  initialMargin := "0"
  marginRatio := "0"
  updatedTime := 100
  exposure := "0"
  leverage := "10"

/-- An account payload whose `isSnapshot` is the string `"true"` (JS-truthy
but not `=== true`), carrying one live and one filled order. -/
def accDataStr : AccountEventData where
  isSnapshot := .jstr "true"
  orders := some [ordLive, ordFilled]
  positions := some [posOpen]
  balance := some balRec

/-- An account payload whose `isSnapshot` is boolean `true`. -/
def accDataSnap : AccountEventData where
  isSnapshot := .jbool true
  orders := some [ordLive, ordFilled]
  positions := some [posOpen]
  balance := some balRec

/-! ## Level-map lemmas -/

theorem levelGet_eq_some {m : LevelMap} {p : ℚ} {e : OrderbookEntry}
    (h : levelGet m p = some e) : e ∈ m ∧ e.price = p := by
  refine ⟨List.mem_of_find?_eq_some h, ?_⟩
  have := List.find?_some h
  simpa using this

theorem levelGet_levelSet_self {m : LevelMap} {p : ℚ} {v : OrderbookEntry}
    (hv : v.price = p) : levelGet (levelSet m p v) p = some v := by
  unfold levelSet levelGet
  split
  · rename_i hany
    induction m with
    | nil => simp at hany
    | cons x xs ih =>
        by_cases hx : x.price = p
        · simp [List.find?, hx, hv]
        · have hany' : xs.any (fun e => decide (e.price = p)) = true := by
            simpa [hx] using hany
          simp [List.find?, hx, ih hany']
  · induction m with
    | nil => simp [List.find?, hv]
    | cons x xs ih =>
        rename_i hany
        have hx : ¬ x.price = p := fun hc => hany (by simp [hc])
        have h2 : ¬ xs.any (fun e => decide (e.price = p)) = true := by
          intro hc
          exact hany (by simp [List.any_cons, hc])
        simpa [List.find?, hx] using ih h2

theorem levelGet_levelDelete_self (m : LevelMap) (p : ℚ) :
    levelGet (levelDelete m p) p = none := by
  unfold levelDelete levelGet
  rw [List.find?_eq_none]
  intro x hx
  rcases List.mem_filter.mp hx with ⟨-, hkeep⟩
  simpa using hkeep

theorem mem_levelSet {m : LevelMap} {p : ℚ} {v e : OrderbookEntry}
    (h : e ∈ levelSet m p v) : e = v ∨ e ∈ m := by
  unfold levelSet at h
  split at h
  · rcases List.mem_map.mp h with ⟨a, ha, rfl⟩
    by_cases hp : a.price = p
    · simp [hp]
    · simp [hp, ha]
  · rcases List.mem_append.mp h with h' | h'
    · exact Or.inr h'
    · simp only [List.mem_singleton] at h'
      exact Or.inl h'

theorem mem_levelDelete {m : LevelMap} {p : ℚ} {e : OrderbookEntry}
    (h : e ∈ levelDelete m p) : e ∈ m :=
  (List.mem_filter.mp h).1

theorem levelKeys_levelSet_of_mem {m : LevelMap} {p : ℚ} {v : OrderbookEntry}
    (hv : v.price = p) (hmem : m.any (fun e => decide (e.price = p)) = true) :
    levelKeys (levelSet m p v) = levelKeys m := by
  unfold levelSet levelKeys
  rw [if_pos hmem, List.map_map]
  refine List.map_congr_left ?_
  intro a _
  by_cases hp : a.price = p
  · simp [hp, hv]
  · simp [hp]

theorem nodup_levelKeys_levelSet {m : LevelMap} {p : ℚ} {v : OrderbookEntry}
    (hv : v.price = p) (h : (levelKeys m).Nodup) :
    (levelKeys (levelSet m p v)).Nodup := by
  by_cases hany : m.any (fun e => decide (e.price = p)) = true
  · rwa [levelKeys_levelSet_of_mem hv hany]
  · unfold levelSet
    rw [if_neg hany]
    unfold levelKeys at h ⊢
    rw [List.map_append]
    have hperm : List.Perm (m.map (·.price) ++ [v].map (·.price))
        (v.price :: m.map (·.price)) := by
      simp only [List.map_cons, List.map_nil]
      exact List.perm_append_singleton v.price (m.map (·.price))
    rw [hperm.nodup_iff]
    refine List.nodup_cons.mpr ⟨?_, h⟩
    intro hmem
    rcases List.mem_map.mp hmem with ⟨a, ha, hpa⟩
    have hap : a.price = p := by rw [hpa, hv]
    exact hany (List.any_eq_true.mpr ⟨a, ha, by simpa using hap⟩)

theorem nodup_levelKeys_levelDelete {m : LevelMap} (p : ℚ)
    (h : (levelKeys m).Nodup) : (levelKeys (levelDelete m p)).Nodup := by
  unfold levelKeys at h ⊢
  unfold levelDelete
  exact List.Nodup.sublist (List.Sublist.map _ (List.filter_sublist m)) h

theorem nodup_levelKeys_applyDeltaLevel {m : LevelMap} {l : OrderbookQuantityModel}
    (h : (levelKeys m).Nodup) : (levelKeys (applyDeltaLevel m l)).Nodup := by
  unfold applyDeltaLevel
  split
  · rename_i existing hget
    have hep := (levelGet_eq_some hget).2
    by_cases hc : existing.qty + l.qty = 0 ∨ existing.qty + l.qty < 0
    · simpa [hc] using nodup_levelKeys_levelDelete l.price h
    · simpa [hc] using @nodup_levelKeys_levelSet m l.price
        { price := existing.price, qty := existing.qty + l.qty } hep h
  · by_cases hq : ¬ l.qty = 0 ∧ ¬ l.qty < 0
    · rw [if_pos hq]
      exact @nodup_levelKeys_levelSet m l.price { price := l.price, qty := l.qty } rfl h
    · rw [if_neg hq]
      exact h

theorem nodup_levelKeys_foldl {data : List OrderbookQuantityModel} {m : LevelMap}
    (h : (levelKeys m).Nodup) :
    (levelKeys (data.foldl applyDeltaLevel m)).Nodup := by
  induction data generalizing m with
  | nil => exact h
  | cons l ls ih => exact ih (nodup_levelKeys_applyDeltaLevel h)

theorem posLevels_levelDelete {m : LevelMap} (p : ℚ) (h : posLevels m) :
    posLevels (levelDelete m p) :=
  fun e he => h e (mem_levelDelete he)

theorem posLevels_levelSet {m : LevelMap} {p : ℚ} {v : OrderbookEntry}
    (hv : 0 < v.qty) (h : posLevels m) : posLevels (levelSet m p v) := by
  intro e he
  rcases mem_levelSet he with rfl | he'
  · exact hv
  · exact h e he'

theorem posLevels_applyDeltaLevel {m : LevelMap} {l : OrderbookQuantityModel}
    (h : posLevels m) : posLevels (applyDeltaLevel m l) := by
  unfold applyDeltaLevel
  split
  · rename_i existing hget
    by_cases hc : existing.qty + l.qty = 0 ∨ existing.qty + l.qty < 0
    · simpa [hc] using posLevels_levelDelete l.price h
    · have hpos : 0 < existing.qty + l.qty := by
        push_neg at hc
        exact lt_of_le_of_ne hc.2 (Ne.symm hc.1)
      simpa [hc] using @posLevels_levelSet m l.price
        { price := existing.price, qty := existing.qty + l.qty } hpos h
  · by_cases hq : ¬ l.qty = 0 ∧ ¬ l.qty < 0
    · rw [if_pos hq]
      have hpos : 0 < l.qty := by
        rcases lt_trichotomy l.qty 0 with h' | h' | h'
        · exact absurd h' hq.2
        · exact absurd h' hq.1
        · exact h'
      exact @posLevels_levelSet m l.price { price := l.price, qty := l.qty } hpos h
    · rw [if_neg hq]
      exact h

theorem posLevels_foldl {data : List OrderbookQuantityModel} {m : LevelMap}
    (h : posLevels m) : posLevels (data.foldl applyDeltaLevel m) := by
  induction data generalizing m with
  | nil => exact h
  | cons l ls ih => exact ih (posLevels_applyDeltaLevel h)

theorem posLevels_initLevels {levels : List OrderbookQuantityModel}
    (hpos : ∀ l ∈ levels, 0 < l.qty) : posLevels (initLevels levels) := by
  unfold initLevels
  suffices h : ∀ (m : LevelMap), posLevels m →
      posLevels (levels.foldl
        (fun m l => levelSet m l.price { price := l.price, qty := l.qty }) m) by
    exact h [] (by intro e he; simp at he)
  induction levels with
  | nil => intro m hm; exact hm
  | cons l ls ih =>
      intro m hm
      have hl : 0 < l.qty := hpos l (by simp)
      have hls : ∀ x ∈ ls, 0 < x.qty := fun x hx => hpos x (by simp [hx])
      exact @ih hls _ (@posLevels_levelSet m l.price { price := l.price, qty := l.qty } hl hm)

theorem nodup_levelKeys_initLevels (levels : List OrderbookQuantityModel) :
    (levelKeys (initLevels levels)).Nodup := by
  unfold initLevels
  suffices h : ∀ (m : LevelMap), (levelKeys m).Nodup →
      (levelKeys (levels.foldl
        (fun m l => levelSet m l.price { price := l.price, qty := l.qty }) m)).Nodup by
    exact h [] (by simp [levelKeys])
  induction levels with
  | nil => intro m hm; exact hm
  | cons l ls ih =>
      intro m hm
      exact ih _ (nodup_levelKeys_levelSet rfl hm)

/-! ## Step-level lemmas -/

theorem obApplyMeta_bidLevels (s : OrderbookState) (ts sq : Option ℕ) :
    (obApplyMeta s ts sq).bidLevels = s.bidLevels := by
  simp only [obApplyMeta]
  split <;> split <;> rfl

theorem obApplyMeta_askLevels (s : OrderbookState) (ts sq : Option ℕ) :
    (obApplyMeta s ts sq).askLevels = s.askLevels := by
  simp only [obApplyMeta]
  split <;> split <;> rfl

theorem obApplyMeta_marketName (s : OrderbookState) (ts sq : Option ℕ) :
    (obApplyMeta s ts sq).marketName = s.marketName := by
  simp only [obApplyMeta]
  split <;> split <;> rfl

theorem obApplyMeta_snapshotReceived (s : OrderbookState) (ts sq : Option ℕ) :
    (obApplyMeta s ts sq).snapshotReceived = s.snapshotReceived := by
  simp only [obApplyMeta]
  split <;> split <;> rfl

theorem obApplyMeta_bufferedDeltas (s : OrderbookState) (ts sq : Option ℕ) :
    (obApplyMeta s ts sq).bufferedDeltas = s.bufferedDeltas := by
  simp only [obApplyMeta]
  split <;> split <;> rfl

theorem obApplyMeta_lastTimestamp_truthy (s : OrderbookState) {ts : Option ℕ}
    (sq : Option ℕ) {t : ℕ} (h : ts = some t) (ht : ¬ t = 0) :
    (obApplyMeta s ts sq).lastTimestamp = t := by
  subst h
  simp only [obApplyMeta, numTruthy, ht, decide_not, decide_eq_true_eq]
  simp only [Bool.not_eq_true', decide_eq_false_iff_not, ht, not_false_iff, if_true]
  split <;> rfl

theorem obApplyMeta_lastSequence_truthy (s : OrderbookState) (ts : Option ℕ)
    {sq : Option ℕ} {q : ℕ} (h : sq = some q) (hq : ¬ q = 0) :
    (obApplyMeta s ts sq).lastSequence = q := by
  subst h
  simp [obApplyMeta, numTruthy, hq]

/-- Both sides of the book contain only positive quantities. -/
def obPos (s : OrderbookState) : Prop :=
  posLevels s.bidLevels ∧ posLevels s.askLevels

theorem updateOrderbook_keysNodup {s : OrderbookState} (d : OrderbookUpdateModel)
    (h : obKeysNodup s) : obKeysNodup (updateOrderbook s d) :=
  ⟨nodup_levelKeys_foldl h.1, nodup_levelKeys_foldl h.2⟩

theorem foldl_updateOrderbook_keysNodup {s : OrderbookState}
    (ds : List OrderbookUpdateModel) (h : obKeysNodup s) :
    obKeysNodup (ds.foldl updateOrderbook s) := by
  induction ds generalizing s with
  | nil => exact h
  | cons d ds ih => exact ih (updateOrderbook_keysNodup d h)

theorem initOrderbook_keysNodup (s : OrderbookState) (d : OrderbookUpdateModel) :
    obKeysNodup (initOrderbook s d) :=
  ⟨nodup_levelKeys_initLevels d.bid, nodup_levelKeys_initLevels d.ask⟩

theorem updateOrderbook_pos {s : OrderbookState} (d : OrderbookUpdateModel)
    (h : obPos s) : obPos (updateOrderbook s d) :=
  ⟨posLevels_foldl h.1, posLevels_foldl h.2⟩

theorem foldl_updateOrderbook_pos {s : OrderbookState}
    (ds : List OrderbookUpdateModel) (h : obPos s) :
    obPos (ds.foldl updateOrderbook s) := by
  induction ds generalizing s with
  | nil => exact h
  | cons d ds ih => exact ih (updateOrderbook_pos d h)

theorem initOrderbook_pos (s : OrderbookState) {d : OrderbookUpdateModel}
    (hd : posPayload d) : obPos (initOrderbook s d) := by
  refine ⟨posLevels_initLevels ?_, posLevels_initLevels ?_⟩
  · intro l hl
    exact hd l (List.mem_append.mpr (Or.inl hl))
  · intro l hl
    exact hd l (List.mem_append.mpr (Or.inr hl))

theorem obStep_keysNodup (s : OrderbookState) (ev : ObEnvelope)
    (h : obKeysNodup s) : obKeysNodup (obStep s ev).1 := by
  have hmeta : obKeysNodup (obApplyMeta s ev.ts ev.seq) := by
    unfold obKeysNodup at h ⊢
    rw [obApplyMeta_bidLevels, obApplyMeta_askLevels]
    exact h
  unfold obStep
  split
  · split
    · rename_i ob hparse
      dsimp only
      apply foldl_updateOrderbook_keysNodup
      exact initOrderbook_keysNodup (obApplyMeta s ev.ts ev.seq) ob
    · exact hmeta
  · split
    · rename_i ob hparse
      dsimp only
      split
      · exact updateOrderbook_keysNodup _ hmeta
      · exact hmeta
    · exact hmeta
  · exact hmeta

theorem obStep_out_eq (s : OrderbookState) (ev : ObEnvelope) :
    ∀ snap ∈ (obStep s ev).2, snap = buildSnapshot (obStep s ev).1 := by
  unfold obStep
  split
  · split
    · dsimp only
      intro snap hsnap
      simpa using hsnap
    · intro snap hsnap
      simp at hsnap
  · split
    · dsimp only
      split
      · intro snap hsnap
        simpa using hsnap
      · intro snap hsnap
        simp at hsnap
    · intro snap hsnap
      simp at hsnap
  · intro snap hsnap
    simp at hsnap

theorem runAccum_acc {σ ε τ : Type} (step : σ → ε → σ × List τ) (evs : List ε) :
    ∀ (s : σ) (l : List τ),
      List.foldl (fun acc ev =>
          let r := step acc.1 ev
          (r.1, acc.2 ++ r.2)) (s, l) evs =
        ((runAccum step s evs).1, l ++ (runAccum step s evs).2) := by
  induction evs with
  | nil =>
      intro s l
      simp [runAccum]
  | cons ev evs ih =>
      intro s l
      simp only [runAccum, List.foldl_cons]
      rw [ih (step s ev).1 (l ++ (step s ev).2), ih (step s ev).1 ([] ++ (step s ev).2)]
      simp [runAccum]

theorem runAccum_cons {σ ε τ : Type} (step : σ → ε → σ × List τ)
    (s : σ) (ev : ε) (evs : List ε) :
    runAccum step s (ev :: evs) =
      ((runAccum step (step s ev).1 evs).1,
        (step s ev).2 ++ (runAccum step (step s ev).1 evs).2) := by
  have h := runAccum_acc step evs (step s ev).1 ([] ++ (step s ev).2)
  simp only [runAccum, List.foldl_cons] at h ⊢
  rw [h]
  simp [runAccum]

theorem obStep_pos (s : OrderbookState) (ev : ObEnvelope) (h : obPos s)
    (hsnap : ev.type = some .SNAPSHOT → ∀ d, ev.data = some d →
      ∀ ob, parseOrderbookData d = some ob → posPayload ob) :
    obPos (obStep s ev).1 := by
  have hmeta : obPos (obApplyMeta s ev.ts ev.seq) := by
    unfold obPos at h ⊢
    rw [obApplyMeta_bidLevels, obApplyMeta_askLevels]
    exact h
  unfold obStep
  split
  · split
    · rename_i d hty hdata mopt ob hparse
      dsimp only
      apply foldl_updateOrderbook_pos
      exact initOrderbook_pos (obApplyMeta s ev.ts ev.seq) (hsnap hty d hdata ob hparse)
    · exact hmeta
  · split
    · dsimp only
      split
      · exact updateOrderbook_pos _ hmeta
      · exact hmeta
    · exact hmeta
  · exact hmeta

theorem obRunFrom_fst_cons (s : OrderbookState) (ev : ObEnvelope) (evs : List ObEnvelope) :
    obRunFrom s (ev :: evs) =
      ((obRunFrom (obStep s ev).1 evs).1,
        (obStep s ev).2 ++ (obRunFrom (obStep s ev).1 evs).2) := by
  unfold obRunFrom
  exact runAccum_cons obStep s ev evs

theorem obRunFrom_pos (evs : List ObEnvelope) (s : OrderbookState) (h : obPos s)
    (hsnap : ∀ ev ∈ evs, ev.type = some .SNAPSHOT → ∀ d, ev.data = some d →
      ∀ ob, parseOrderbookData d = some ob → posPayload ob) :
    obPos (obRunFrom s evs).1 := by
  induction evs generalizing s with
  | nil => exact h
  | cons ev evs ih =>
      rw [obRunFrom_fst_cons]
      exact ih (obStep s ev).1
        (obStep_pos s ev h (hsnap ev (by simp)))
        (fun e he => hsnap e (by simp [he]))

theorem obRunFrom_keysNodup (evs : List ObEnvelope) (s : OrderbookState)
    (h : obKeysNodup s) : obKeysNodup (obRunFrom s evs).1 := by
  induction evs generalizing s with
  | nil => exact h
  | cons ev evs ih =>
      rw [obRunFrom_fst_cons]
      exact ih (obStep s ev).1 (obStep_keysNodup s ev h)

theorem buildSnapshot_bids_pairwise (s : OrderbookState) :
    (buildSnapshot s).bids.Pairwise bidOrder :=
  List.sorted_insertionSort bidOrder s.bidLevels

theorem buildSnapshot_asks_pairwise (s : OrderbookState) :
    (buildSnapshot s).asks.Pairwise askOrder :=
  List.sorted_insertionSort askOrder s.askLevels

theorem buildSnapshot_bids_keys_nodup {s : OrderbookState}
    (h : (levelKeys s.bidLevels).Nodup) :
    (levelKeys (buildSnapshot s).bids).Nodup := by
  unfold levelKeys at h ⊢
  unfold buildSnapshot
  exact (((List.perm_insertionSort bidOrder s.bidLevels).map (·.price)).nodup_iff).mpr h

theorem buildSnapshot_asks_keys_nodup {s : OrderbookState}
    (h : (levelKeys s.askLevels).Nodup) :
    (levelKeys (buildSnapshot s).asks).Nodup := by
  unfold levelKeys at h ⊢
  unfold buildSnapshot
  exact (((List.perm_insertionSort askOrder s.askLevels).map (·.price)).nodup_iff).mpr h

theorem obRunFrom_out_sorted (evs : List ObEnvelope) (s : OrderbookState)
    (h : obKeysNodup s) :
    ∀ snap ∈ (obRunFrom s evs).2,
      snap.bids.Pairwise bidOrder ∧ (levelKeys snap.bids).Nodup ∧
      snap.asks.Pairwise askOrder ∧ (levelKeys snap.asks).Nodup := by
  induction evs generalizing s with
  | nil =>
      intro snap hsnap
      simp [obRunFrom, runAccum] at hsnap
  | cons ev evs ih =>
      intro snap hsnap
      rw [obRunFrom_fst_cons] at hsnap
      rcases List.mem_append.mp hsnap with h1 | h2
      · have heq := obStep_out_eq s ev snap h1
        subst heq
        have hn := obStep_keysNodup s ev h
        exact ⟨buildSnapshot_bids_pairwise _, buildSnapshot_bids_keys_nodup hn.1,
          buildSnapshot_asks_pairwise _, buildSnapshot_asks_keys_nodup hn.2⟩
      · exact ih (obStep s ev).1 (obStep_keysNodup s ev h) snap h2

theorem updateOrderbook_lastTimestamp (s : OrderbookState) (d : OrderbookUpdateModel) :
    (updateOrderbook s d).lastTimestamp = s.lastTimestamp := rfl

theorem updateOrderbook_lastSequence (s : OrderbookState) (d : OrderbookUpdateModel) :
    (updateOrderbook s d).lastSequence = s.lastSequence := rfl

theorem foldl_updateOrderbook_lastTimestamp (ds : List OrderbookUpdateModel)
    (s : OrderbookState) :
    (ds.foldl updateOrderbook s).lastTimestamp = s.lastTimestamp := by
  induction ds generalizing s with
  | nil => rfl
  | cons d ds ih => rw [List.foldl_cons, ih, updateOrderbook_lastTimestamp]

theorem foldl_updateOrderbook_lastSequence (ds : List OrderbookUpdateModel)
    (s : OrderbookState) :
    (ds.foldl updateOrderbook s).lastSequence = s.lastSequence := by
  induction ds generalizing s with
  | nil => rfl
  | cons d ds ih => rw [List.foldl_cons, ih, updateOrderbook_lastSequence]

theorem obStep_lastTimestamp (s : OrderbookState) (ev : ObEnvelope) :
    (obStep s ev).1.lastTimestamp = (obApplyMeta s ev.ts ev.seq).lastTimestamp := by
  unfold obStep
  split
  · split
    · dsimp only
      rw [foldl_updateOrderbook_lastTimestamp]
      rfl
    · rfl
  · split
    · dsimp only
      split
      · rw [updateOrderbook_lastTimestamp]
      · rfl
    · rfl
  · rfl

theorem obStep_lastSequence (s : OrderbookState) (ev : ObEnvelope) :
    (obStep s ev).1.lastSequence = (obApplyMeta s ev.ts ev.seq).lastSequence := by
  unfold obStep
  split
  · split
    · dsimp only
      rw [foldl_updateOrderbook_lastSequence]
      rfl
    · rfl
  · split
    · dsimp only
      split
      · rw [updateOrderbook_lastSequence]
      · rfl
    · rfl
  · rfl

/-! ## Account-side lemmas -/

theorem accApplyMeta_positions (s : AccountState) (ts sq : Option ℕ) :
    (accApplyMeta s ts sq).positions = s.positions := by
  simp only [accApplyMeta]
  split <;> split <;> rfl

theorem accApplyMeta_orders (s : AccountState) (ts sq : Option ℕ) :
    (accApplyMeta s ts sq).orders = s.orders := by
  simp only [accApplyMeta]
  split <;> split <;> rfl

theorem accApplyMeta_balance (s : AccountState) (ts sq : Option ℕ) :
    (accApplyMeta s ts sq).balance = s.balance := by
  simp only [accApplyMeta]
  split <;> split <;> rfl

theorem accApplyMeta_lastTimestamp_truthy (s : AccountState) {ts : Option ℕ}
    (sq : Option ℕ) {t : ℕ} (h : ts = some t) (ht : ¬ t = 0) :
    (accApplyMeta s ts sq).lastTimestamp = t := by
  subst h
  simp only [accApplyMeta, numTruthy, ht, decide_not, decide_eq_true_eq]
  simp only [Bool.not_eq_true', decide_eq_false_iff_not, ht, not_false_iff, if_true]
  split <;> rfl

theorem accApplyMeta_lastSequence_truthy (s : AccountState) (ts : Option ℕ)
    {sq : Option ℕ} {q : ℕ} (h : sq = some q) (hq : ¬ q = 0) :
    (accApplyMeta s ts sq).lastSequence = q := by
  subst h
  simp [accApplyMeta, numTruthy, hq]

theorem keyGet_keyDelete_self {β : Type} (m : KeyedMap β) (k : ℕ) :
    keyGet (keyDelete m k) k = none := by
  unfold keyDelete keyGet
  rw [List.find?_eq_none.mpr]
  · rfl
  · intro x hx
    rcases List.mem_filter.mp hx with ⟨-, hkeep⟩
    simpa using hkeep

theorem mem_keySet {β : Type} {m : KeyedMap β} {k : ℕ} {v : β} {e : ℕ × β}
    (h : e ∈ keySet m k v) : e = (k, v) ∨ e ∈ m := by
  unfold keySet at h
  split at h
  · rcases List.mem_map.mp h with ⟨a, ha, rfl⟩
    by_cases hk : a.1 = k
    · simp [hk]
    · simp [hk, ha]
  · rcases List.mem_append.mp h with h' | h'
    · exact Or.inr h'
    · simp only [List.mem_singleton] at h'
      exact Or.inl h'

theorem mem_keyDelete {β : Type} {m : KeyedMap β} {k : ℕ} {e : ℕ × β}
    (h : e ∈ keyDelete m k) : e ∈ m :=
  (List.mem_filter.mp h).1

/-- Every stored order has a live status. -/
def ordersLive (m : KeyedMap AccountOrder) : Prop :=
  ∀ e ∈ m, e.2.status ∈ ACTIVE_ORDER_STATUSES

theorem handleOrderSnapshot_live (orders : List AccountOrder) :
    ordersLive (handleOrderSnapshot orders) := by
  unfold handleOrderSnapshot
  suffices h : ∀ (m : KeyedMap AccountOrder), ordersLive m →
      ordersLive (orders.foldl
        (fun m o => if o.status ∈ ACTIVE_ORDER_STATUSES then keySet m o.id o else m) m) by
    exact h [] (by intro e he; simp at he)
  induction orders with
  | nil => intro m hm; exact hm
  | cons o os ih =>
      intro m hm
      apply ih
      dsimp only
      by_cases ho : o.status ∈ ACTIVE_ORDER_STATUSES
      · rw [if_pos ho]
        intro e he
        rcases mem_keySet he with rfl | he'
        · exact ho
        · exact hm e he'
      · rw [if_neg ho]
        exact hm

theorem handleOrderUpdate_live {m : KeyedMap AccountOrder}
    (orders : List AccountOrder) (hm : ordersLive m) :
    ordersLive (handleOrderUpdate m orders) := by
  unfold handleOrderUpdate
  induction orders generalizing m with
  | nil => exact hm
  | cons o os ih =>
      rw [List.foldl_cons]
      apply ih
      dsimp only
      by_cases ho : o.status ∈ ACTIVE_ORDER_STATUSES
      · rw [if_pos ho]
        intro e he
        rcases mem_keySet he with rfl | he'
        · exact ho
        · exact hm e he'
      · rw [if_neg ho]
        intro e he
        exact hm e (mem_keyDelete he)

theorem handleOrderUpdate_terminal_removed (m : KeyedMap AccountOrder)
    {o : AccountOrder} (ho : ¬ o.status ∈ ACTIVE_ORDER_STATUSES) :
    keyGet (handleOrderUpdate m [o]) o.id = none := by
  unfold handleOrderUpdate
  rw [List.foldl_cons, if_neg ho, List.foldl_nil]
  exact keyGet_keyDelete_self m o.id

/-- Every stored order of the account subscription state is live. -/
def accOrdersLive (s : AccountState) : Prop :=
  ordersLive s.orders

theorem accStep_ordersLive (s : AccountState) (ev : AccEnvelope)
    (h : accOrdersLive s) : accOrdersLive (accStep s ev).1 := by
  have hmeta : accOrdersLive (accApplyMeta s ev.ts ev.seq) := by
    unfold accOrdersLive at h ⊢
    rw [accApplyMeta_orders]
    exact h
  unfold accStep
  split
  · exact hmeta
  · dsimp only
    split
    · split
      · exact handleOrderSnapshot_live _
      · exact handleOrderUpdate_live _ hmeta
    · split
      · split
        · exact hmeta
        · exact hmeta
      · split
        · split
          · split
            · exact hmeta
            · exact hmeta
          · exact hmeta
        · exact hmeta

theorem accRunFrom_fst_cons (s : AccountState) (ev : AccEnvelope)
    (evs : List AccEnvelope) :
    accRunFrom s (ev :: evs) =
      ((accRunFrom (accStep s ev).1 evs).1,
        (accStep s ev).2 ++ (accRunFrom (accStep s ev).1 evs).2) := by
  unfold accRunFrom
  exact runAccum_cons accStep s ev evs

theorem accRunFrom_ordersLive (evs : List AccEnvelope) (s : AccountState)
    (h : accOrdersLive s) : accOrdersLive (accRunFrom s evs).1 := by
  induction evs generalizing s with
  | nil => exact h
  | cons ev evs ih =>
      rw [accRunFrom_fst_cons]
      exact ih (accStep s ev).1 (accStep_ordersLive s ev h)

/-! ## Claim C1 -/

/-- C1 counterexample: the claim asserts that every level present in the maps
has strictly positive quantity because a snapshot stores only non-zero levels.
`initOrderbook` applies no quantity filter: a snapshot whose payload carries
the bid level `(100, 0)` stores that level verbatim, so the reached state
contains a zero-quantity level. -/
theorem orderbook_positive_qty_cex :
    (obRun "BTC-USD" [evSnapZero]).1.bidLevels = [{ price := 100, qty := 0 }] ∧
    ¬ (∀ e ∈ (obRun "BTC-USD" [evSnapZero]).1.bidLevels, 0 < e.qty) := by
  with_unfolding_all decide

/-- C1 (amended): if every applied snapshot payload carries only levels of
strictly positive quantity, then every level present in the bid map and the
ask map after any sequence of snapshot and delta events has strictly positive
quantity — deltas preserve positivity (a delta driving a level to zero or
below removes it, and a non-positive delta on an absent level is ignored),
but a snapshot stores its incoming levels verbatim, so snapshots with
zero-or-negative levels are excluded by hypothesis. -/
theorem orderbook_positive_qty (market : String) (evs : List ObEnvelope)
    (hsnap : ∀ ev ∈ evs, ev.type = some .SNAPSHOT → ∀ d, ev.data = some d →
      ∀ ob, parseOrderbookData d = some ob → ∀ l ∈ ob.bid ++ ob.ask, 0 < l.qty) :
    (∀ e ∈ (obRun market evs).1.bidLevels, 0 < e.qty) ∧
    (∀ e ∈ (obRun market evs).1.askLevels, 0 < e.qty) := by
  have hinit : obPos (obInit market) := by
    constructor <;> intro e he <;> simp [obInit] at he
  have h := obRunFrom_pos evs (obInit market) hinit hsnap
  exact ⟨h.1, h.2⟩

/-- C1 witness: the amended theorem applied to the run
snapshot `{bids: [(100, 5)], asks: [(101, 3)]}` then delta `{bids: [(100, -2)]}`. -/
theorem orderbook_positive_qty_witness :
    (∀ e ∈ (obRun "BTC-USD" [evSnap, evDelta1]).1.bidLevels, 0 < e.qty) ∧
    (∀ e ∈ (obRun "BTC-USD" [evSnap, evDelta1]).1.askLevels, 0 < e.qty) := by
  apply orderbook_positive_qty
  intro ev hev hty d hd ob hob
  simp only [List.mem_cons, List.not_mem_nil, or_false] at hev
  rcases hev with rfl | rfl
  · have hd' : d = rawSnapData := by
      have : evSnap.data = some rawSnapData := rfl
      rw [this] at hd
      exact ((Option.some.injEq _ _).mp hd).symm
    subst hd'
    have hob' : ob = obSnapModel := by
      have hp : parseOrderbookData rawSnapData = some obSnapModel := by
        with_unfolding_all decide
      rw [hp] at hob
      exact ((Option.some.injEq _ _).mp hob).symm
    subst hob'
    with_unfolding_all decide
  · exact absurd hty (by with_unfolding_all decide)

/-! ## Claim C2 -/

/-- The per-level delta semantics of `updateOrderbook` at one price key. -/
theorem applyDeltaLevel_spec (m : LevelMap) (p q dq : ℚ) :
    (∀ e, levelGet m p = some e → e.qty = q →
        (0 < q + dq → levelGet (applyDeltaLevel m { qty := dq, price := p }) p
            = some { price := p, qty := q + dq }) ∧
        (q + dq ≤ 0 → levelGet (applyDeltaLevel m { qty := dq, price := p }) p = none)) ∧
    (levelGet m p = none →
        (0 < dq → levelGet (applyDeltaLevel m { qty := dq, price := p }) p
            = some { price := p, qty := dq }) ∧
        (dq ≤ 0 → applyDeltaLevel m { qty := dq, price := p } = m)) := by
  constructor
  · intro e hget hq
    subst hq
    have hep := (levelGet_eq_some hget).2
    have harm : applyDeltaLevel m { qty := dq, price := p } =
        (if e.qty + dq = 0 ∨ e.qty + dq < 0 then levelDelete m p
         else levelSet m p { price := e.price, qty := e.qty + dq }) := by
      unfold applyDeltaLevel
      dsimp only
      rw [hget]
    constructor
    · intro hpos
      rw [harm, if_neg (by push_neg; exact ⟨by linarith, by linarith⟩)]
      rw [@levelGet_levelSet_self m p { price := e.price, qty := e.qty + dq } hep]
      rw [hep]
    · intro hle
      rw [harm, if_pos ?hc]
      · exact levelGet_levelDelete_self m p
      · rcases lt_or_eq_of_le hle with h | h
        · exact Or.inr h
        · exact Or.inl h
  · intro hget
    have harm : applyDeltaLevel m { qty := dq, price := p } =
        (if ¬ dq = 0 ∧ ¬ dq < 0 then levelSet m p { price := p, qty := dq } else m) := by
      unfold applyDeltaLevel
      dsimp only
      rw [hget]
    constructor
    · intro hpos
      rw [harm, if_pos ⟨by linarith, by linarith⟩]
      exact @levelGet_levelSet_self m p { price := p, qty := dq } rfl
    · intro hle
      rw [harm, if_neg ?hq]
      rintro ⟨h1, h2⟩
      rcases lt_or_eq_of_le hle with h | h
      · exact h2 h
      · exact h1 h

/-- C2: applying a single-level delta `(p, Δ)` on one side adds Δ to an
existing level at `p` (keeping it exactly when the new quantity is positive,
removing it otherwise), inserts `(p, Δ)` when absent and `Δ > 0`, and leaves
the whole state unchanged when absent and `Δ ≤ 0` — on both the bid side and
the ask side. -/
theorem delta_additive_semantics (s : OrderbookState) (mkt : String) (p q dq : ℚ) :
    (∀ e, levelGet s.bidLevels p = some e → e.qty = q →
        (0 < q + dq → levelGet (updateOrderbook s
            { market := mkt, bid := [{ qty := dq, price := p }], ask := [] }).bidLevels p
          = some { price := p, qty := q + dq }) ∧
        (q + dq ≤ 0 → levelGet (updateOrderbook s
            { market := mkt, bid := [{ qty := dq, price := p }], ask := [] }).bidLevels p
          = none)) ∧
    (levelGet s.bidLevels p = none →
        (0 < dq → levelGet (updateOrderbook s
            { market := mkt, bid := [{ qty := dq, price := p }], ask := [] }).bidLevels p
          = some { price := p, qty := dq }) ∧
        (dq ≤ 0 → updateOrderbook s
            { market := mkt, bid := [{ qty := dq, price := p }], ask := [] } = s)) ∧
    (∀ e, levelGet s.askLevels p = some e → e.qty = q →
        (0 < q + dq → levelGet (updateOrderbook s
            { market := mkt, bid := [], ask := [{ qty := dq, price := p }] }).askLevels p
          = some { price := p, qty := q + dq }) ∧
        (q + dq ≤ 0 → levelGet (updateOrderbook s
            { market := mkt, bid := [], ask := [{ qty := dq, price := p }] }).askLevels p
          = none)) ∧
    (levelGet s.askLevels p = none →
        (0 < dq → levelGet (updateOrderbook s
            { market := mkt, bid := [], ask := [{ qty := dq, price := p }] }).askLevels p
          = some { price := p, qty := dq }) ∧
        (dq ≤ 0 → updateOrderbook s
            { market := mkt, bid := [], ask := [{ qty := dq, price := p }] } = s)) := by
  have hbid : (updateOrderbook s
      { market := mkt, bid := [{ qty := dq, price := p }], ask := [] }).bidLevels
      = applyDeltaLevel s.bidLevels { qty := dq, price := p } := rfl
  have hask : (updateOrderbook s
      { market := mkt, bid := [], ask := [{ qty := dq, price := p }] }).askLevels
      = applyDeltaLevel s.askLevels { qty := dq, price := p } := rfl
  refine ⟨?_, ?_, ?_, ?_⟩
  · intro e hget hq
    rw [hbid]
    exact (applyDeltaLevel_spec s.bidLevels p q dq).1 e hget hq
  · intro hget
    constructor
    · intro hpos
      rw [hbid]
      exact ((applyDeltaLevel_spec s.bidLevels p q dq).2 hget).1 hpos
    · intro hle
      have hno := ((applyDeltaLevel_spec s.bidLevels p q dq).2 hget).2 hle
      unfold updateOrderbook
      simp only [List.foldl_cons, List.foldl_nil]
      rw [hno]
  · intro e hget hq
    rw [hask]
    exact (applyDeltaLevel_spec s.askLevels p q dq).1 e hget hq
  · intro hget
    constructor
    · intro hpos
      rw [hask]
      exact ((applyDeltaLevel_spec s.askLevels p q dq).2 hget).1 hpos
    · intro hle
      have hno := ((applyDeltaLevel_spec s.askLevels p q dq).2 hget).2 hle
      unfold updateOrderbook
      simp only [List.foldl_cons, List.foldl_nil]
      rw [hno]

/-- C2 witness: from a book holding bid level `(100, 5)`, a bid delta of
`-3` yields `(100, 2)` and a bid delta of `-5` removes the level. -/
theorem delta_additive_semantics_witness :
    levelGet (updateOrderbook { obInit "BTC-USD" with bidLevels := [{ price := 100, qty := 5 }] }
        { market := "BTC-USD", bid := [{ qty := -3, price := 100 }], ask := [] }).bidLevels 100
      = some { price := 100, qty := 2 } ∧
    levelGet (updateOrderbook { obInit "BTC-USD" with bidLevels := [{ price := 100, qty := 5 }] }
        { market := "BTC-USD", bid := [{ qty := -5, price := 100 }], ask := [] }).bidLevels 100
      = none := by
  constructor
  · have h := ((delta_additive_semantics
        { obInit "BTC-USD" with bidLevels := [{ price := 100, qty := 5 }] }
        "BTC-USD" 100 5 (-3)).1 { price := 100, qty := 5 }
        (by with_unfolding_all decide) rfl).1 (by norm_num)
    rw [h]
    norm_num
  · exact ((delta_additive_semantics
        { obInit "BTC-USD" with bidLevels := [{ price := 100, qty := 5 }] }
        "BTC-USD" 100 5 (-5)).1 { price := 100, qty := 5 }
        (by with_unfolding_all decide) rfl).2 (by norm_num)

/-! ## Claim C3 -/

theorem initOrderbook_bufferedDeltas (s : OrderbookState) (d : OrderbookUpdateModel) :
    (initOrderbook s d).bufferedDeltas = s.bufferedDeltas := rfl

theorem obStep_delta_buffered (s : OrderbookState) (ev : ObEnvelope)
    (r : RawOrderbookData) (ob : OrderbookUpdateModel)
    (hty : ev.type = some .DELTA) (hd : ev.data = some r)
    (hp : parseOrderbookData r = some ob) (hsr : s.snapshotReceived = false) :
    obStep s ev = ({ obApplyMeta s ev.ts ev.seq with
        bufferedDeltas := s.bufferedDeltas ++ [ob] }, []) := by
  unfold obStep
  rw [hty, hd]
  dsimp only
  rw [hp]
  dsimp only
  rw [obApplyMeta_snapshotReceived, hsr]
  simp only [Bool.false_eq_true, if_false]
  rw [obApplyMeta_bufferedDeltas]

theorem obStep_delta_applied (s : OrderbookState) (ev : ObEnvelope)
    (r : RawOrderbookData) (ob : OrderbookUpdateModel)
    (hty : ev.type = some .DELTA) (hd : ev.data = some r)
    (hp : parseOrderbookData r = some ob) (hsr : s.snapshotReceived = true) :
    obStep s ev = (updateOrderbook (obApplyMeta s ev.ts ev.seq) ob,
      [buildSnapshot (updateOrderbook (obApplyMeta s ev.ts ev.seq) ob)]) := by
  unfold obStep
  rw [hty, hd]
  dsimp only
  rw [hp]
  dsimp only
  rw [obApplyMeta_snapshotReceived, hsr]
  simp only [if_true]

theorem obStep_snapshot_eq (s : OrderbookState) (ev : ObEnvelope)
    (r : RawOrderbookData) (ob : OrderbookUpdateModel)
    (hty : ev.type = some .SNAPSHOT) (hd : ev.data = some r)
    (hp : parseOrderbookData r = some ob) :
    obStep s ev =
      ({ s.bufferedDeltas.foldl updateOrderbook
           { initOrderbook (obApplyMeta s ev.ts ev.seq) ob with snapshotReceived := true }
         with bufferedDeltas := [] },
       [buildSnapshot
         { s.bufferedDeltas.foldl updateOrderbook
             { initOrderbook (obApplyMeta s ev.ts ev.seq) ob with snapshotReceived := true }
           with bufferedDeltas := [] }]) := by
  unfold obStep
  rw [hty, hd]
  dsimp only
  rw [hp]
  dsimp only
  rw [initOrderbook_bufferedDeltas, obApplyMeta_bufferedDeltas]

theorem updateOrderbook_levels_congr (d : OrderbookUpdateModel)
    {b b' : OrderbookState} (hb : b.bidLevels = b'.bidLevels)
    (ha : b.askLevels = b'.askLevels) :
    (updateOrderbook b d).bidLevels = (updateOrderbook b' d).bidLevels ∧
    (updateOrderbook b d).askLevels = (updateOrderbook b' d).askLevels := by
  unfold updateOrderbook
  exact ⟨by rw [hb], by rw [ha]⟩

theorem foldl_updateOrderbook_levels_congr (ds : List OrderbookUpdateModel)
    {b b' : OrderbookState} (hb : b.bidLevels = b'.bidLevels)
    (ha : b.askLevels = b'.askLevels) :
    (ds.foldl updateOrderbook b).bidLevels = (ds.foldl updateOrderbook b').bidLevels ∧
    (ds.foldl updateOrderbook b).askLevels = (ds.foldl updateOrderbook b').askLevels := by
  induction ds generalizing b b' with
  | nil => exact ⟨hb, ha⟩
  | cons d ds ih =>
      simp only [List.foldl_cons]
      exact ih (updateOrderbook_levels_congr d hb ha).1
        (updateOrderbook_levels_congr d hb ha).2

theorem updateOrderbook_snapshotReceived (s : OrderbookState)
    (d : OrderbookUpdateModel) :
    (updateOrderbook s d).snapshotReceived = s.snapshotReceived := rfl

theorem foldl_updateOrderbook_snapshotReceived (ds : List OrderbookUpdateModel)
    (s : OrderbookState) :
    (ds.foldl updateOrderbook s).snapshotReceived = s.snapshotReceived := by
  induction ds generalizing s with
  | nil => rfl
  | cons d ds ih => rw [List.foldl_cons, ih, updateOrderbook_snapshotReceived]

/-- C3: deltas A and B delivered before any snapshot are buffered and produce
no emission; after a snapshot S and one more delta C, the level maps equal
those of the direct reducer-call sequence
`applyDelta(applyDelta(applyDelta(applySnapshot(S), A), B), C)`. -/
theorem buffer_then_replay (mkt : String) (rA rB rS rC : RawOrderbookData)
    (A B S C : OrderbookUpdateModel) (tA tB tS tC qA qB qS qC : Option ℕ)
    (hA : parseOrderbookData rA = some A) (hB : parseOrderbookData rB = some B)
    (hS : parseOrderbookData rS = some S) (hC : parseOrderbookData rC = some C) :
    (obRun mkt [⟨some .DELTA, some rA, tA, qA⟩, ⟨some .DELTA, some rB, tB, qB⟩]).2 = [] ∧
    (obRun mkt [⟨some .DELTA, some rA, tA, qA⟩, ⟨some .DELTA, some rB, tB, qB⟩,
        ⟨some .SNAPSHOT, some rS, tS, qS⟩, ⟨some .DELTA, some rC, tC, qC⟩]).1.bidLevels =
      (updateOrderbook (updateOrderbook (updateOrderbook
        (initOrderbook (obInit mkt) S) A) B) C).bidLevels ∧
    (obRun mkt [⟨some .DELTA, some rA, tA, qA⟩, ⟨some .DELTA, some rB, tB, qB⟩,
        ⟨some .SNAPSHOT, some rS, tS, qS⟩, ⟨some .DELTA, some rC, tC, qC⟩]).1.askLevels =
      (updateOrderbook (updateOrderbook (updateOrderbook
        (initOrderbook (obInit mkt) S) A) B) C).askLevels := by
  set evA : ObEnvelope := ⟨some .DELTA, some rA, tA, qA⟩ with hevA
  set evB : ObEnvelope := ⟨some .DELTA, some rB, tB, qB⟩ with hevB
  set evS : ObEnvelope := ⟨some .SNAPSHOT, some rS, tS, qS⟩ with hevS
  set evC : ObEnvelope := ⟨some .DELTA, some rC, tC, qC⟩ with hevC
  have hstepA := obStep_delta_buffered (obInit mkt) evA rA A rfl rfl hA rfl
  set s1 : OrderbookState := { obApplyMeta (obInit mkt) evA.ts evA.seq with
      bufferedDeltas := (obInit mkt).bufferedDeltas ++ [A] } with hs1
  have hs1sr : s1.snapshotReceived = false := by
    rw [hs1]
    show (obApplyMeta (obInit mkt) evA.ts evA.seq).snapshotReceived = false
    rw [obApplyMeta_snapshotReceived]
    rfl
  have hstepB := obStep_delta_buffered s1 evB rB B rfl rfl hB hs1sr
  set s2 : OrderbookState := { obApplyMeta s1 evB.ts evB.seq with
      bufferedDeltas := s1.bufferedDeltas ++ [B] } with hs2
  have hs2buf : s2.bufferedDeltas = [A, B] := by
    rw [hs2]
    show s1.bufferedDeltas ++ [B] = [A, B]
    rw [hs1]
    rfl
  have hstepS := obStep_snapshot_eq s2 evS rS S rfl rfl hS
  set s3 : OrderbookState := { s2.bufferedDeltas.foldl updateOrderbook
      { initOrderbook (obApplyMeta s2 evS.ts evS.seq) S with snapshotReceived := true }
    with bufferedDeltas := [] } with hs3
  have hs3sr : s3.snapshotReceived = true := by
    rw [hs3]
    show (s2.bufferedDeltas.foldl updateOrderbook
      { initOrderbook (obApplyMeta s2 evS.ts evS.seq) S
        with snapshotReceived := true }).snapshotReceived = true
    rw [foldl_updateOrderbook_snapshotReceived]
  have hstepC := obStep_delta_applied s3 evC rC C rfl rfl hC hs3sr
  -- the replay fold over [A, B] equals the direct reducer-call chain on the maps
  have hbase : ({ initOrderbook (obApplyMeta s2 evS.ts evS.seq) S
        with snapshotReceived := true } : OrderbookState).bidLevels
      = (initOrderbook (obInit mkt) S).bidLevels ∧
      ({ initOrderbook (obApplyMeta s2 evS.ts evS.seq) S
        with snapshotReceived := true } : OrderbookState).askLevels
      = (initOrderbook (obInit mkt) S).askLevels := ⟨rfl, rfl⟩
  have hreplay := foldl_updateOrderbook_levels_congr [A, B] hbase.1 hbase.2
  have hs3bid : s3.bidLevels =
      (updateOrderbook (updateOrderbook (initOrderbook (obInit mkt) S) A) B).bidLevels := by
    rw [hs3]
    show (s2.bufferedDeltas.foldl updateOrderbook _).bidLevels = _
    rw [hs2buf]
    exact hreplay.1
  have hs3ask : s3.askLevels =
      (updateOrderbook (updateOrderbook (initOrderbook (obInit mkt) S) A) B).askLevels := by
    rw [hs3]
    show (s2.bufferedDeltas.foldl updateOrderbook _).askLevels = _
    rw [hs2buf]
    exact hreplay.2
  have hrun2 : obRun mkt [evA, evB] = (s2, []) := by
    unfold obRun
    rw [obRunFrom_fst_cons, hstepA]
    dsimp only
    rw [obRunFrom_fst_cons, hstepB]
    dsimp only
    rfl
  have hrun4 : (obRun mkt [evA, evB, evS, evC]).1 =
      updateOrderbook (obApplyMeta s3 evC.ts evC.seq) C := by
    unfold obRun
    rw [obRunFrom_fst_cons, hstepA]
    dsimp only
    rw [obRunFrom_fst_cons, hstepB]
    dsimp only
    rw [obRunFrom_fst_cons, hstepS]
    dsimp only
    rw [obRunFrom_fst_cons, hstepC]
    dsimp only
    rfl
  refine ⟨by rw [hrun2], ?_, ?_⟩
  · rw [hrun4]
    have hmeta : (obApplyMeta s3 evC.ts evC.seq).bidLevels = s3.bidLevels :=
      obApplyMeta_bidLevels _ _ _
    have h := (@updateOrderbook_levels_congr C
      (obApplyMeta s3 evC.ts evC.seq)
      (updateOrderbook (updateOrderbook (initOrderbook (obInit mkt) S) A) B)
      (by rw [hmeta, hs3bid]) (by rw [obApplyMeta_askLevels, hs3ask])).1
    exact h
  · rw [hrun4]
    have h := (@updateOrderbook_levels_congr C
      (obApplyMeta s3 evC.ts evC.seq)
      (updateOrderbook (updateOrderbook (initOrderbook (obInit mkt) S) A) B)
      (by rw [obApplyMeta_bidLevels, hs3bid]) (by rw [obApplyMeta_askLevels, hs3ask])).2
    exact h

/-- C3 witness: the buffer-then-replay equality at the concrete stream
delta A (bids −2@100), delta B (asks −3@101), snapshot S, delta C (bids +4@99). -/
theorem buffer_then_replay_witness :
    (obRun "BTC-USD" [⟨some .DELTA, some rawDeltaAData, some 11, some 2⟩,
        ⟨some .DELTA, some rawDeltaBData, some 12, some 3⟩]).2 = [] ∧
    (obRun "BTC-USD" [⟨some .DELTA, some rawDeltaAData, some 11, some 2⟩,
        ⟨some .DELTA, some rawDeltaBData, some 12, some 3⟩,
        ⟨some .SNAPSHOT, some rawSnapData, some 13, some 4⟩,
        ⟨some .DELTA, some rawDeltaCData, some 14, some 5⟩]).1.bidLevels =
      (updateOrderbook (updateOrderbook (updateOrderbook
        (initOrderbook (obInit "BTC-USD") obSnapModel) obDeltaAModel) obDeltaBModel)
        obDeltaCModel).bidLevels ∧
    (obRun "BTC-USD" [⟨some .DELTA, some rawDeltaAData, some 11, some 2⟩,
        ⟨some .DELTA, some rawDeltaBData, some 12, some 3⟩,
        ⟨some .SNAPSHOT, some rawSnapData, some 13, some 4⟩,
        ⟨some .DELTA, some rawDeltaCData, some 14, some 5⟩]).1.askLevels =
      (updateOrderbook (updateOrderbook (updateOrderbook
        (initOrderbook (obInit "BTC-USD") obSnapModel) obDeltaAModel) obDeltaBModel)
        obDeltaCModel).askLevels :=
  buffer_then_replay "BTC-USD" rawDeltaAData rawDeltaBData rawSnapData rawDeltaCData
    obDeltaAModel obDeltaBModel obSnapModel obDeltaCModel
    (some 11) (some 12) (some 13) (some 14) (some 2) (some 3) (some 4) (some 5)
    (by with_unfolding_all decide) (by with_unfolding_all decide)
    (by with_unfolding_all decide) (by with_unfolding_all decide)

/-! ## Claim C4 -/

/-- C4: per-entity emission rule of the account subscription — an order
snapshot emits nothing, an order delta emits one snapshot view, a position
snapshot and a position delta each emit one, a balance snapshot emits
nothing, and a balance delta emits one exactly when a balance object is
present on the payload. -/
theorem account_emission_asymmetry (s : AccountState) (d : AccountEventData)
    (ts sq : Option ℕ) :
    (d.isSnapshot = JVal.jbool true →
        (accStep s ⟨some .ORDER, some d, ts, sq⟩).2.length = 0 ∧
        (accStep s ⟨some .POSITION, some d, ts, sq⟩).2.length = 1 ∧
        (accStep s ⟨some .BALANCE, some d, ts, sq⟩).2.length = 0) ∧
    (¬ d.isSnapshot = JVal.jbool true →
        (accStep s ⟨some .ORDER, some d, ts, sq⟩).2.length = 1 ∧
        (accStep s ⟨some .POSITION, some d, ts, sq⟩).2.length = 1 ∧
        ((accStep s ⟨some .BALANCE, some d, ts, sq⟩).2.length = 1 ↔
          ¬ d.balance = none)) := by
  constructor
  · intro h
    refine ⟨?_, ?_, ?_⟩
    · simp [accStep, h]
    · simp [accStep, h]
    · cases hb : d.balance with
      | none => simp [accStep, h, hb]
      | some b => simp [accStep, h, hb]
  · intro h
    refine ⟨?_, ?_, ?_⟩
    · simp [accStep, h]
    · simp [accStep, h]
    · cases hb : d.balance with
      | none => simp [accStep, h, hb]
      | some b => simp [accStep, h, hb]

/-- C4 witness: the emission rule applied to a delta payload (`isSnapshot`
is the string `"true"`, not boolean `true`) carrying a balance object, and
to the boolean-`true` snapshot payload. -/
theorem account_emission_asymmetry_witness :
    ((accStep accInit ⟨some .ORDER, some accDataSnap, some 5, some 6⟩).2.length = 0 ∧
     (accStep accInit ⟨some .POSITION, some accDataSnap, some 5, some 6⟩).2.length = 1 ∧
     (accStep accInit ⟨some .BALANCE, some accDataSnap, some 5, some 6⟩).2.length = 0) ∧
    ((accStep accInit ⟨some .ORDER, some accDataStr, some 5, some 6⟩).2.length = 1 ∧
     (accStep accInit ⟨some .POSITION, some accDataStr, some 5, some 6⟩).2.length = 1 ∧
     ((accStep accInit ⟨some .BALANCE, some accDataStr, some 5, some 6⟩).2.length = 1 ↔
       ¬ accDataStr.balance = none)) :=
  ⟨(account_emission_asymmetry accInit accDataSnap (some 5) (some 6)).1
      (by with_unfolding_all decide),
   (account_emission_asymmetry accInit accDataStr (some 5) (some 6)).2
      (by with_unfolding_all decide)⟩

/-! ## Claim C5 -/

/-- C5: an order delta with a terminal status removes the order id from the
live-order map even when it was never present; an order snapshot stores only
orders whose status is in the live set; and along every event sequence from
the initial state the live-order map holds only live-status orders. -/
theorem order_liveness (m : KeyedMap AccountOrder) (o : AccountOrder)
    (orders : List AccountOrder) (evs : List AccEnvelope) :
    (¬ o.status ∈ ACTIVE_ORDER_STATUSES →
        keyGet (handleOrderUpdate m [o]) o.id = none) ∧
    (∀ e ∈ handleOrderSnapshot orders, e.2.status ∈ ACTIVE_ORDER_STATUSES) ∧
    (∀ e ∈ (accRun evs).1.orders, e.2.status ∈ ACTIVE_ORDER_STATUSES) := by
  refine ⟨fun ho => handleOrderUpdate_terminal_removed m ho,
    handleOrderSnapshot_live orders, ?_⟩
  exact accRunFrom_ordersLive evs accInit (by intro e he; simp [accInit] at he)

/-- C5 witness: deleting the never-seen FILLED order id 2 from an empty map,
a snapshot holding one live and one filled order, and a one-event run. -/
theorem order_liveness_witness :
    keyGet (handleOrderUpdate [] [ordFilled]) ordFilled.id = none ∧
    (∀ e ∈ handleOrderSnapshot [ordLive, ordFilled],
        e.2.status ∈ ACTIVE_ORDER_STATUSES) ∧
    (∀ e ∈ (accRun [⟨some .ORDER, some accDataStr, some 5, some 6⟩]).1.orders,
        e.2.status ∈ ACTIVE_ORDER_STATUSES) := by
  have h := order_liveness [] ordFilled [ordLive, ordFilled]
    [⟨some .ORDER, some accDataStr, some 5, some 6⟩]
  exact ⟨h.1 (by with_unfolding_all decide), h.2.1, h.2.2⟩

/-! ## Claim C6 -/

/-- C6: every order-book view emitted by the subscription has bids sorted in
non-increasing price order, asks sorted in non-decreasing price order, and no
duplicate price keys on either side. -/
theorem built_snapshot_sorted (market : String) (evs : List ObEnvelope)
    (snap : FullOrderbookSnapshot) (h : snap ∈ (obRun market evs).2) :
    snap.bids.Pairwise (fun a b => b.price ≤ a.price) ∧
    (snap.bids.map (·.price)).Nodup ∧
    snap.asks.Pairwise (fun a b => a.price ≤ b.price) ∧
    (snap.asks.map (·.price)).Nodup := by
  have hinit : obKeysNodup (obInit market) := by
    constructor <;> simp [obInit, levelKeys]
  have h' := obRunFrom_out_sorted evs (obInit market) hinit snap h
  exact ⟨h'.1, h'.2.1, h'.2.2.1, h'.2.2.2⟩

/-- C6 witness: the view emitted for `evDelta1` after `evSnap`. -/
theorem built_snapshot_sorted_witness :
    c6snap.bids.Pairwise (fun a b => b.price ≤ a.price) ∧
    (c6snap.bids.map (·.price)).Nodup ∧
    c6snap.asks.Pairwise (fun a b => a.price ≤ b.price) ∧
    (c6snap.asks.map (·.price)).Nodup :=
  built_snapshot_sorted "BTC-USD" [evSnap, evDelta1] c6snap
    (by with_unfolding_all decide)

/-! ## Claim C7 -/

/-- C7: an orderbook payload whose data is missing a required field (market,
bid array, or ask array) is silently skipped — the level maps, the buffer and
the initialized flag are unchanged and no consumer snapshot is emitted, so
the loop just proceeds to the next envelope. -/
theorem malformed_payload_skipped (s : OrderbookState) (ev : ObEnvelope)
    (d : RawOrderbookData) (hd : ev.data = some d)
    (hp : parseOrderbookData d = none) :
    (obStep s ev).1.bidLevels = s.bidLevels ∧
    (obStep s ev).1.askLevels = s.askLevels ∧
    (obStep s ev).1.snapshotReceived = s.snapshotReceived ∧
    (obStep s ev).1.bufferedDeltas = s.bufferedDeltas ∧
    (obStep s ev).2 = [] := by
  unfold obStep
  split
  · rename_i a b r hty hdata
    rw [hd] at hdata
    have hr : r = d := ((Option.some.injEq _ _).mp hdata).symm
    subst hr
    rw [hp]
    exact ⟨obApplyMeta_bidLevels _ _ _, obApplyMeta_askLevels _ _ _,
      obApplyMeta_snapshotReceived _ _ _, obApplyMeta_bufferedDeltas _ _ _, rfl⟩
  · rename_i a b r hty hdata
    rw [hd] at hdata
    have hr : r = d := ((Option.some.injEq _ _).mp hdata).symm
    subst hr
    rw [hp]
    exact ⟨obApplyMeta_bidLevels _ _ _, obApplyMeta_askLevels _ _ _,
      obApplyMeta_snapshotReceived _ _ _, obApplyMeta_bufferedDeltas _ _ _, rfl⟩
  · exact ⟨obApplyMeta_bidLevels _ _ _, obApplyMeta_askLevels _ _ _,
      obApplyMeta_snapshotReceived _ _ _, obApplyMeta_bufferedDeltas _ _ _, rfl⟩

/-- C7 witness: a delta envelope whose payload lacks the ask array, received
in the initial state. -/
theorem malformed_payload_skipped_witness :
    (obStep (obInit "BTC-USD") evMalformed).1.bidLevels = (obInit "BTC-USD").bidLevels ∧
    (obStep (obInit "BTC-USD") evMalformed).1.askLevels = (obInit "BTC-USD").askLevels ∧
    (obStep (obInit "BTC-USD") evMalformed).1.snapshotReceived
      = (obInit "BTC-USD").snapshotReceived ∧
    (obStep (obInit "BTC-USD") evMalformed).1.bufferedDeltas
      = (obInit "BTC-USD").bufferedDeltas ∧
    (obStep (obInit "BTC-USD") evMalformed).2 = [] :=
  malformed_payload_skipped (obInit "BTC-USD") evMalformed
    { m := some "BTC-USD", b := some [{ q := 1, p := 100 }], a := none }
    rfl (by with_unfolding_all decide)

/-! ## Claim C8 -/

theorem accStep_lastTimestamp (s : AccountState) (ev : AccEnvelope) :
    (accStep s ev).1.lastTimestamp = (accApplyMeta s ev.ts ev.seq).lastTimestamp := by
  unfold accStep
  split
  · rfl
  · dsimp only
    split
    · split <;> rfl
    · split
      · split <;> rfl
      · split
        · split
          · split <;> rfl
          · rfl
        · rfl

theorem accStep_lastSequence (s : AccountState) (ev : AccEnvelope) :
    (accStep s ev).1.lastSequence = (accApplyMeta s ev.ts ev.seq).lastSequence := by
  unfold accStep
  split
  · rfl
  · dsimp only
    split
    · split <;> rfl
    · split
      · split <;> rfl
      · split
        · split
          · split <;> rfl
          · rfl
        · rfl

/-- C8 counterexample: the claim asserts that any envelope carrying a
timestamp or sequence number updates the metadata. The code tests JS
truthiness, so an envelope carrying `ts: 0` and `seq: 0` leaves both fields
unchanged instead of setting them to 0. -/
theorem meta_update_cex :
    evZeroMeta.ts = some 0 ∧ evZeroMeta.seq = some 0 ∧
    (obStep { obInit "BTC-USD" with lastTimestamp := 5, lastSequence := 7 }
        evZeroMeta).1.lastTimestamp = 5 ∧
    (obStep { obInit "BTC-USD" with lastTimestamp := 5, lastSequence := 7 }
        evZeroMeta).1.lastSequence = 7 ∧
    ¬ ((obStep { obInit "BTC-USD" with lastTimestamp := 5, lastSequence := 7 }
        evZeroMeta).1.lastTimestamp = 0 ∧
       (obStep { obInit "BTC-USD" with lastTimestamp := 5, lastSequence := 7 }
        evZeroMeta).1.lastSequence = 0) := by
  with_unfolding_all decide

/-- C8 (amended): on both subscriptions, `lastTimestamp` and `lastSequence`
are updated from every envelope whose timestamp or sequence number is present
and nonzero (a zero value is JS-falsy and is ignored), regardless of whether
the envelope's payload is applied and whether anything is emitted. -/
theorem meta_updated_from_envelope (s : OrderbookState) (sa : AccountState)
    (ev : ObEnvelope) (av : AccEnvelope) (t q : ℕ) :
    (ev.ts = some t → ¬ t = 0 → (obStep s ev).1.lastTimestamp = t) ∧
    (ev.seq = some q → ¬ q = 0 → (obStep s ev).1.lastSequence = q) ∧
    (av.ts = some t → ¬ t = 0 → (accStep sa av).1.lastTimestamp = t) ∧
    (av.seq = some q → ¬ q = 0 → (accStep sa av).1.lastSequence = q) := by
  refine ⟨?_, ?_, ?_, ?_⟩
  · intro h ht
    rw [obStep_lastTimestamp]
    exact obApplyMeta_lastTimestamp_truthy s ev.seq h ht
  · intro h hq
    rw [obStep_lastSequence]
    exact obApplyMeta_lastSequence_truthy s ev.ts h hq
  · intro h ht
    rw [accStep_lastTimestamp]
    exact accApplyMeta_lastTimestamp_truthy sa av.seq h ht
  · intro h hq
    rw [accStep_lastSequence]
    exact accApplyMeta_lastSequence_truthy sa av.ts h hq

/-- C8 witness: `evSnap` (ts 10, seq 1) on the orderbook side and an order
delta envelope (ts 10, seq 1) on the account side, from fresh states. -/
theorem meta_updated_from_envelope_witness :
    (obStep (obInit "BTC-USD") evSnap).1.lastTimestamp = 10 ∧
    (obStep (obInit "BTC-USD") evSnap).1.lastSequence = 1 ∧
    (accStep accInit ⟨some .ORDER, some accDataStr, some 10, some 1⟩).1.lastTimestamp = 10 ∧
    (accStep accInit ⟨some .ORDER, some accDataStr, some 10, some 1⟩).1.lastSequence = 1 := by
  have h := meta_updated_from_envelope (obInit "BTC-USD") accInit evSnap
    ⟨some .ORDER, some accDataStr, some 10, some 1⟩ 10 1
  exact ⟨h.1 rfl (by decide), h.2.1 rfl (by decide),
    h.2.2.1 rfl (by decide), h.2.2.2 rfl (by decide)⟩

/-! ## Claim C9 -/

theorem bidBetter_ne_none (acc : Option OrderbookEntry) (x : OrderbookEntry) :
    ¬ bidBetter acc x = none := by
  cases acc with
  | none => simp [bidBetter]
  | some b =>
      simp only [bidBetter]
      split <;> simp

theorem askBetter_ne_none (acc : Option OrderbookEntry) (x : OrderbookEntry) :
    ¬ askBetter acc x = none := by
  cases acc with
  | none => simp [askBetter]
  | some b =>
      simp only [askBetter]
      split <;> simp

theorem foldl_bidBetter_none_iff (l : List OrderbookEntry) :
    ∀ acc : Option OrderbookEntry,
      (l.foldl bidBetter acc = none ↔ (acc = none ∧ l = [])) := by
  induction l with
  | nil => intro acc; simp
  | cons x xs ih =>
      intro acc
      rw [List.foldl_cons, ih]
      simp [bidBetter_ne_none acc x]

theorem foldl_askBetter_none_iff (l : List OrderbookEntry) :
    ∀ acc : Option OrderbookEntry,
      (l.foldl askBetter acc = none ↔ (acc = none ∧ l = [])) := by
  induction l with
  | nil => intro acc; simp
  | cons x xs ih =>
      intro acc
      rw [List.foldl_cons, ih]
      simp [askBetter_ne_none acc x]

theorem foldl_bidBetter_spec (l : List OrderbookEntry) :
    ∀ (acc : Option OrderbookEntry) (e : OrderbookEntry),
      l.foldl bidBetter acc = some e →
      (acc = some e ∨ e ∈ l) ∧ (∀ b, acc = some b → b.price ≤ e.price) ∧
      (∀ x ∈ l, x.price ≤ e.price) := by
  induction l with
  | nil =>
      intro acc e h
      simp only [List.foldl_nil] at h
      subst h
      exact ⟨Or.inl rfl, fun b hb => by cases hb; exact le_refl _, by simp⟩
  | cons x xs ih =>
      intro acc e h
      rw [List.foldl_cons] at h
      obtain ⟨h1, h2, h3⟩ := ih (bidBetter acc x) e h
      cases acc with
      | none =>
          have hx : x.price ≤ e.price := h2 x (by simp [bidBetter])
          refine ⟨?_, ?_, ?_⟩
          · rcases h1 with h1 | h1
            · simp only [bidBetter] at h1
              have hxe : x = e := (Option.some.injEq _ _).mp h1
              exact Or.inr (by simp [hxe])
            · exact Or.inr (List.mem_cons_of_mem _ h1)
          · intro b hb
            cases hb
          · intro y hy
            rcases List.mem_cons.mp hy with rfl | hy
            · exact hx
            · exact h3 y hy
      | some b0 =>
          by_cases hgt : x.price > b0.price
          · have hbb : bidBetter (some b0) x = some x := by simp [bidBetter, hgt]
            rw [hbb] at h1 h2
            have hx : x.price ≤ e.price := h2 x rfl
            have hb0 : b0.price ≤ e.price := le_trans (le_of_lt hgt) hx
            refine ⟨?_, ?_, ?_⟩
            · rcases h1 with h1 | h1
              · have hxe : x = e := (Option.some.injEq _ _).mp h1
                exact Or.inr (by simp [hxe])
              · exact Or.inr (List.mem_cons_of_mem _ h1)
            · intro b hb
              have hbe : b0 = b := (Option.some.injEq _ _).mp hb
              exact hbe ▸ hb0
            · intro y hy
              rcases List.mem_cons.mp hy with rfl | hy
              · exact hx
              · exact h3 y hy
          · have hbb : bidBetter (some b0) x = some b0 := by simp [bidBetter, hgt]
            rw [hbb] at h1 h2
            have hb0 : b0.price ≤ e.price := h2 b0 rfl
            have hx : x.price ≤ e.price := le_trans (not_lt.mp hgt) hb0
            refine ⟨?_, ?_, ?_⟩
            · rcases h1 with h1 | h1
              · have hbe : b0 = e := (Option.some.injEq _ _).mp h1
                exact Or.inl (by rw [hbe])
              · exact Or.inr (List.mem_cons_of_mem _ h1)
            · intro b hb
              have hbe : b0 = b := (Option.some.injEq _ _).mp hb
              exact hbe ▸ hb0
            · intro y hy
              rcases List.mem_cons.mp hy with rfl | hy
              · exact hx
              · exact h3 y hy

theorem foldl_askBetter_spec (l : List OrderbookEntry) :
    ∀ (acc : Option OrderbookEntry) (e : OrderbookEntry),
      l.foldl askBetter acc = some e →
      (acc = some e ∨ e ∈ l) ∧ (∀ b, acc = some b → e.price ≤ b.price) ∧
      (∀ x ∈ l, e.price ≤ x.price) := by
  induction l with
  | nil =>
      intro acc e h
      simp only [List.foldl_nil] at h
      subst h
      exact ⟨Or.inl rfl, fun b hb => by cases hb; exact le_refl _, by simp⟩
  | cons x xs ih =>
      intro acc e h
      rw [List.foldl_cons] at h
      obtain ⟨h1, h2, h3⟩ := ih (askBetter acc x) e h
      cases acc with
      | none =>
          have hx : e.price ≤ x.price := h2 x (by simp [askBetter])
          refine ⟨?_, ?_, ?_⟩
          · rcases h1 with h1 | h1
            · simp only [askBetter] at h1
              have hxe : x = e := (Option.some.injEq _ _).mp h1
              exact Or.inr (by simp [hxe])
            · exact Or.inr (List.mem_cons_of_mem _ h1)
          · intro b hb
            cases hb
          · intro y hy
            rcases List.mem_cons.mp hy with rfl | hy
            · exact hx
            · exact h3 y hy
      | some b0 =>
          by_cases hlt : x.price < b0.price
          · have hbb : askBetter (some b0) x = some x := by simp [askBetter, hlt]
            rw [hbb] at h1 h2
            have hx : e.price ≤ x.price := h2 x rfl
            have hb0 : e.price ≤ b0.price := le_trans hx (le_of_lt hlt)
            refine ⟨?_, ?_, ?_⟩
            · rcases h1 with h1 | h1
              · have hxe : x = e := (Option.some.injEq _ _).mp h1
                exact Or.inr (by simp [hxe])
              · exact Or.inr (List.mem_cons_of_mem _ h1)
            · intro b hb
              have hbe : b0 = b := (Option.some.injEq _ _).mp hb
              exact hbe ▸ hb0
            · intro y hy
              rcases List.mem_cons.mp hy with rfl | hy
              · exact hx
              · exact h3 y hy
          · have hbb : askBetter (some b0) x = some b0 := by simp [askBetter, hlt]
            rw [hbb] at h1 h2
            have hb0 : e.price ≤ b0.price := h2 b0 rfl
            have hx : e.price ≤ x.price := le_trans hb0 (not_lt.mp hlt)
            refine ⟨?_, ?_, ?_⟩
            · rcases h1 with h1 | h1
              · have hbe : b0 = e := (Option.some.injEq _ _).mp h1
                exact Or.inl (by rw [hbe])
              · exact Or.inr (List.mem_cons_of_mem _ h1)
            · intro b hb
              have hbe : b0 = b := (Option.some.injEq _ _).mp hb
              exact hbe ▸ hb0
            · intro y hy
              rcases List.mem_cons.mp hy with rfl | hy
              · exact hx
              · exact h3 y hy

/-- C9: `bestBid` is none exactly on an empty bid side and otherwise returns
a stored entry of maximum price; `bestAsk` is none exactly on an empty ask
side and otherwise returns a stored entry of minimum price; `getMidPrice` is
the arithmetic mean of the two best prices and none when either side is
empty. All three are total functions of the state, valid in any state. -/
theorem best_accessors (s : OrderbookState) :
    (bestBid s = none ↔ s.bidLevels = []) ∧
    (∀ e, bestBid s = some e → e ∈ s.bidLevels ∧ ∀ x ∈ s.bidLevels, x.price ≤ e.price) ∧
    (bestAsk s = none ↔ s.askLevels = []) ∧
    (∀ e, bestAsk s = some e → e ∈ s.askLevels ∧ ∀ x ∈ s.askLevels, e.price ≤ x.price) ∧
    (∀ b a, bestBid s = some b → bestAsk s = some a →
        getMidPrice s = some ((b.price + a.price) / 2)) ∧
    ((bestBid s = none ∨ bestAsk s = none) → getMidPrice s = none) := by
  refine ⟨?_, ?_, ?_, ?_, ?_, ?_⟩
  · unfold bestBid
    split
    · rename_i hlen
      rw [List.length_eq_zero] at hlen
      simp [hlen]
    · rw [foldl_bidBetter_none_iff]
      simp
  · intro e he
    unfold bestBid at he
    split at he
    · cases he
    · obtain ⟨h1, h2, h3⟩ := foldl_bidBetter_spec _ _ _ he
      refine ⟨?_, h3⟩
      rcases h1 with h1 | h1
      · cases h1
      · exact h1
  · unfold bestAsk
    split
    · rename_i hlen
      rw [List.length_eq_zero] at hlen
      simp [hlen]
    · rw [foldl_askBetter_none_iff]
      simp
  · intro e he
    unfold bestAsk at he
    split at he
    · cases he
    · obtain ⟨h1, h2, h3⟩ := foldl_askBetter_spec _ _ _ he
      refine ⟨?_, h3⟩
      rcases h1 with h1 | h1
      · cases h1
      · exact h1
  · intro b a hb ha
    unfold getMidPrice
    rw [hb, ha]
  · intro h
    rcases h with h | h
    · cases hA : bestAsk s <;> simp [getMidPrice, h, hA]
    · cases hB : bestBid s <;> simp [getMidPrice, h, hB]

/-- C9 witness: a book holding bids `(99, 1), (100, 5)` and ask `(101, 3)`
has mid price `(100 + 101) / 2`; the freshly initialized empty book has no
mid price. -/
theorem best_accessors_witness :
    getMidPrice { obInit "BTC-USD" with
        bidLevels := [{ price := 99, qty := 1 }, { price := 100, qty := 5 }],
        askLevels := [{ price := 101, qty := 3 }] } = some ((100 + 101) / 2) ∧
    getMidPrice (obInit "BTC-USD") = none := by
  constructor
  · exact (best_accessors _).2.2.2.2.1 { price := 100, qty := 5 } { price := 101, qty := 3 }
      (by with_unfolding_all decide) (by with_unfolding_all decide)
  · exact (best_accessors (obInit "BTC-USD")).2.2.2.2.2
      (Or.inl (by with_unfolding_all decide))

/-! ## Claim C10 -/

/-- C10: the snapshot-handling branch of the account subscription runs only
when the payload's `isSnapshot` is exactly boolean `true`; any other value
(absent, `false`, a truthy string such as `"true"`, a number) is processed
through the delta/update path, with the corresponding emission behaviour. -/
theorem isSnapshot_strict (s : AccountState) (d : AccountEventData)
    (ts sq : Option ℕ) :
    (¬ d.isSnapshot = JVal.jbool true →
        (accStep s ⟨some .ORDER, some d, ts, sq⟩).1.orders
          = handleOrderUpdate s.orders (d.orders.getD []) ∧
        (accStep s ⟨some .ORDER, some d, ts, sq⟩).2.length = 1 ∧
        (accStep s ⟨some .POSITION, some d, ts, sq⟩).1.positions
          = handlePositionUpdate s.positions (d.positions.getD [])) ∧
    (d.isSnapshot = JVal.jbool true →
        (accStep s ⟨some .ORDER, some d, ts, sq⟩).1.orders
          = handleOrderSnapshot (d.orders.getD []) ∧
        (accStep s ⟨some .ORDER, some d, ts, sq⟩).2 = [] ∧
        (accStep s ⟨some .POSITION, some d, ts, sq⟩).1.positions
          = handlePositionSnapshot (d.positions.getD [])) := by
  constructor
  · intro h
    refine ⟨?_, ?_, ?_⟩ <;>
      simp [accStep, h, accApplyMeta_orders, accApplyMeta_positions]
  · intro h
    refine ⟨?_, ?_, ?_⟩ <;>
      simp [accStep, h, accApplyMeta_orders, accApplyMeta_positions]

/-- C10 witness: a payload whose `isSnapshot` is the JS-truthy string
`"true"` takes the update path, and the boolean-`true` payload takes the
snapshot path. -/
theorem isSnapshot_strict_witness :
    ((accStep accInit ⟨some .ORDER, some accDataStr, some 5, some 6⟩).1.orders
        = handleOrderUpdate accInit.orders (accDataStr.orders.getD []) ∧
      (accStep accInit ⟨some .ORDER, some accDataStr, some 5, some 6⟩).2.length = 1 ∧
      (accStep accInit ⟨some .POSITION, some accDataStr, some 5, some 6⟩).1.positions
        = handlePositionUpdate accInit.positions (accDataStr.positions.getD [])) ∧
    ((accStep accInit ⟨some .ORDER, some accDataSnap, some 5, some 6⟩).1.orders
        = handleOrderSnapshot (accDataSnap.orders.getD []) ∧
      (accStep accInit ⟨some .ORDER, some accDataSnap, some 5, some 6⟩).2 = [] ∧
      (accStep accInit ⟨some .POSITION, some accDataSnap, some 5, some 6⟩).1.positions
        = handlePositionSnapshot (accDataSnap.positions.getD [])) :=
  ⟨(isSnapshot_strict accInit accDataStr (some 5) (some 6)).1
      (by with_unfolding_all decide),
   (isSnapshot_strict accInit accDataSnap (some 5) (some 6)).2
      (by with_unfolding_all decide)⟩

end StreamSdk
